import Mathlib

/-!
Verification of the question-answering orchestration pipeline of the
SanzhenQ-A repository (`src/jin_sanzhen_kg/QA_system.py`).

The Python code is shallowly embedded:
* loosely-typed JSON values coming back from `json.loads` are modelled by
  `PyVal`; Python dicts are association lists with unique keys, with
  `assocGet` / `assocSet` / `pySetdefault` mirroring `d[k]` reads,
  `d[k] = v` writes and `d.setdefault(k, v)`;
* the similarity ratio of `difflib.SequenceMatcher(None, a, b).ratio()`
  is an explicit parameter `sim : String → String → ℚ` of the matcher
  (it is external library code; the claims are proved for every ratio
  function, or under the ratio facts the claim itself cites);
* the generation service (DashScope chat completion) and the Neo4j graph
  store are external collaborators; a generation call is modelled by a
  `GenOutcome` (success with some text, or a raised exception) and the
  store by a function from a Cypher text and parameters to records.
  Calls actually issued to the store / generation service are made
  observable as an `Effect` trace;
* floats (the 0.7 cutoff) are modelled as rationals.
-/

namespace SanzhenQA

/-- Model of the dynamically-typed values handled by the Python code
(JSON values from `json.loads`, Neo4j record fields). -/
inductive PyVal where
  | pstr (s : String)
  | pnum (n : Int)
  | pbool (b : Bool)
  | pnull
  | plist (xs : List PyVal)
  | pdict (kvs : List (String × PyVal))

/-- A Neo4j record: a flat mapping field name → value. -/
def Record : Type := List (String × PyVal)

/-- Python dict read `m.get(k)` / `m[k]` on an association list with
unique keys (the first binding wins). -/
def assocGet {α : Type} (m : List (String × α)) (k : String) : Option α :=
  match m with
  | [] => none
  | (k', v) :: rest => if k' = k then some v else assocGet rest k

/-- Python dict write `m[k] = v`: replace the binding in place if the key
is present, otherwise append it (Python dicts keep insertion order). -/
def assocSet {α : Type} (m : List (String × α)) (k : String) (v : α) :
    List (String × α) :=
  match m with
  | [] => [(k, v)]
  | (k', v') :: rest => if k' = k then (k, v) :: rest else (k', v') :: assocSet rest k v

/-- Python `m.setdefault(k, v)`: insert `(k, v)` only when `k` is absent. -/
def pySetdefault (kvs : List (String × PyVal)) (k : String) (v : PyVal) :
    List (String × PyVal) :=
  match assocGet kvs k with
  | some _ => kvs
  | none => kvs ++ [(k, v)]

/-- Observable calls to the two external collaborators: a graph-store
query execution (`graph.run`, with the Cypher text that was run) and a
chat-completion call to the generation service. -/
inductive Effect where
  | storeQuery (cql : String)
  | genCall
deriving DecidableEq, Repr

/-- Outcome of one chat-completion call: the service either returns a
text or raises (network error, API error, …). -/
inductive GenOutcome where
  | failure
  | success (content : String)

/-!
Fuzzy alignment (`_best_match`, lines 100–115)

`difflib.get_close_matches(word, possibilities, n, cutoff)` keeps every
candidate `x` whose `SequenceMatcher(None, x, word).ratio()` clears the
cutoff (its `real_quick_ratio`/`quick_ratio` pre-filters are upper bounds
of `ratio`, so the triple conjunction is equivalent to
`ratio ≥ cutoff`), then returns the `n` largest scored candidates,
ordering pairs `(ratio, x)` the way Python's `heapq.nlargest` compares
tuples: by ratio first, ties by the string, larger first. -/

/-- The default similarity cutoff 0.7 of `_best_match` (written with
`mkRat` so that it evaluates inside the kernel; `mkRat 7 10 = 7/10`). -/
def ratCutoff : ℚ := mkRat 7 10

/-- Python tuple comparison `(p.ratio, p.str) ≥ (q.ratio, q.str)` used by
`heapq.nlargest` on `(ratio, candidate)` pairs, descending order. -/
def tupGe (p q : ℚ × String) : Prop :=
  q.1 < p.1 ∨ (p.1 = q.1 ∧ q.2 ≤ p.2)

instance instDecidableTupGe (p q : ℚ × String) : Decidable (tupGe p q) := by
  unfold tupGe; infer_instance

/-- Insert into a descending-sorted list of scored candidates. -/
def insertDesc (a : ℚ × String) : List (ℚ × String) → List (ℚ × String)
  | [] => [a]
  | b :: bs => if tupGe a b then a :: b :: bs else b :: insertDesc a bs

/-- Sort scored candidates in descending tuple order (the order in which
`heapq.nlargest` would list them). -/
def sortDesc : List (ℚ × String) → List (ℚ × String)
  | [] => []
  | a :: as => insertDesc a (sortDesc as)

/-- The scored survivors of the cutoff filter inside
`difflib.get_close_matches`: `(ratio, candidate)` for every candidate
whose ratio against `word` clears `cutoff`, in candidate-list order. -/
def scoredList (sim : String → String → ℚ) (word : String)
    (possibilities : List String) (cutoff : ℚ) : List (ℚ × String) :=
  possibilities.filterMap fun x =>
    if cutoff ≤ sim x word then some (sim x word, x) else none

/-- `difflib.get_close_matches(word, possibilities, n=n, cutoff=cutoff)`
for the ratio function `sim`. -/
def getCloseMatches (sim : String → String → ℚ) (word : String)
    (possibilities : List String) (n : Nat) (cutoff : ℚ) : List String :=
  ((sortDesc (scoredList sim word possibilities cutoff)).take n).map Prod.snd

/-- `_best_match(name, candidates, cutoff, top_n)` (QA_system.py 100–115):
empty name or empty candidate pool short-circuit to no match; otherwise
take the close matches, re-score the top one with the arguments in the
opposite order (`SequenceMatcher(None, name, best)`), and reject it if
that score is below the cutoff, still surfacing the candidate list. -/
def bestMatch (sim : String → String → ℚ) (name : String)
    (candidates : List String) (cutoff : ℚ) (topN : Nat) :
    Option String × List String :=
  if name = "" ∨ candidates = [] then (none, [])
  else
    match getCloseMatches sim name candidates topN cutoff with
    | [] => (none, [])
    | best :: rest =>
        let score := sim name best
        if score < cutoff then (none, best :: rest) else (some best, best :: rest)

/-- The per-mention substitution `normalize_entities` performs with one
category's vocabulary: the adopted best candidate when `_best_match`
found one, the original mention otherwise. -/
def normElem (sim : String → String → ℚ) (vocab : List String) (d : String) : String :=
  match (bestMatch sim d vocab ratCutoff 5).1 with
  | some best => best
  | none => d

/-- `needle` occurs as a contiguous run inside `hay` (character lists). -/
def charsContain (needle : List Char) : List Char → Bool
  | [] => needle.isEmpty
  | c :: rest => needle.isPrefixOf (c :: rest) || charsContain needle rest

/-- Substring test (Python's `needle in hay`). -/
def strContains (hay needle : String) : Bool :=
  charsContain needle.data hay.data

/-- Python `s.strip()` (modelled on the character list; Python strips a
slightly larger set of Unicode whitespace than `Char.isWhitespace`,
which does not matter for the texts handled here). -/
def pyStrip (s : String) : String :=
  ⟨((s.data.dropWhile Char.isWhitespace).reverse.dropWhile Char.isWhitespace).reverse⟩

/-- Python `s.startswith(pre)`. -/
def pyStartsWith (s pre : String) : Bool :=
  pre.data.isPrefixOf s.data

/-- Python `s.endswith(suf)`. -/
def pyEndsWith (s suf : String) : Bool :=
  suf.data.isSuffixOf s.data

/-- Split a character list at every newline (the separators handled by
`str.splitlines` beyond `\n` do not occur in the handled texts). -/
def splitAtNl : List Char → List (List Char)
  | [] => [[]]
  | c :: rest =>
      let r := splitAtNl rest
      if c = '\n' then [] :: r else (c :: r.headD []) :: r.tail

/-- Python `s.splitlines()`: newline-separated segments, without a final
empty segment for a trailing newline, and `[]` for the empty string. -/
def pySplitLines (s : String) : List String :=
  let segs := splitAtNl s.data
  ((if segs.getLast? = some [] then segs.dropLast else segs).map fun cs => ⟨cs⟩)

/-- Python `"\n".join(lines)`. -/
def joinNl (lines : List String) : String :=
  ⟨List.intercalate ['\n'] (lines.map String.data)⟩

/-!
Entity normalization (`normalize_entities`, lines 118–186)

An intent carries a query type and the three entity-mention lists
(diseases, combos, points), per the repository's parse schema.
`normalize_entities` copies the parsed intent (`parsed.copy()`), rewrites
each of the three lists element by element, and accumulates a suggestion
report: `unmatched` is a list of `{"type": t, "name": n}` entries and
`candidates` maps an original mention to a per-category candidate list
(`suggest["candidates"].setdefault(d, {})[cat] = cands`). At the end the
report collapses to the empty dict when both parts stayed empty.
-/

structure Intent where
  query_type : String
  diseases : List String
  combos : List String
  points : List String
deriving DecidableEq, Repr

/-- The `suggest` dict being filled by `normalize_entities`. -/
structure SuggestState where
  unmatched : List (String × String)
  candidates : List (String × List (String × List String))
deriving DecidableEq, Repr

/-- `suggest["candidates"].setdefault(d, {})[cat] = cands`: fetch (or
create) the inner per-category dict of mention `d` and assign `cat`. -/
def candSet (st : SuggestState) (d cat : String) (cands : List String) :
    SuggestState :=
  let inner := (assocGet st.candidates d).getD []
  { st with candidates := assocSet st.candidates d (assocSet inner cat cands) }

/-- Read back `suggest["candidates"][d][cat]`, when present. -/
def candGet (st : SuggestState) (d cat : String) : Option (List String) :=
  match assocGet st.candidates d with
  | none => none
  | some inner => assocGet inner cat

/-- One category's loop of `normalize_entities`: for every mention run
`_best_match` against the category vocabulary with cutoff 0.7; on a match
adopt the best candidate (recording the candidate list when it is
ambiguous, i.e. longer than one); otherwise keep the mention, add an
`unmatched` entry and record the surfaced candidates when any exist.
The informational log line on an adoption that changes the string is a
side effect with no functional content and is not modelled. -/
def normCat (sim : String → String → ℚ) (vocab : List String)
    (catKey typeName : String) :
    List String → SuggestState → List String × SuggestState
  | [], st => ([], st)
  | d :: rest, st =>
      match (bestMatch sim d vocab ratCutoff 5).1 with
      | some best =>
          let st1 := if ((bestMatch sim d vocab ratCutoff 5).2).length > 1
                     then candSet st d catKey ((bestMatch sim d vocab ratCutoff 5).2)
                     else st
          ((best :: (normCat sim vocab catKey typeName rest st1).1),
           (normCat sim vocab catKey typeName rest st1).2)
      | none =>
          let stU := { st with unmatched := st.unmatched ++ [(typeName, d)] }
          let st1 := if ((bestMatch sim d vocab ratCutoff 5).2) ≠ []
                     then candSet stU d catKey ((bestMatch sim d vocab ratCutoff 5).2)
                     else stU
          ((d :: (normCat sim vocab catKey typeName rest st1).1),
           (normCat sim vocab catKey typeName rest st1).2)

/-- `normalize_entities` given the three vocabulary snapshots: normalize
the three categories in order against their own vocabularies, and return
the rewritten intent together with the suggestion report (`none` models
the final `suggest = {}` collapse when nothing was recorded). -/
def normalizeCore (sim : String → String → ℚ) (vd vc vp : List String)
    (parsed : Intent) : Intent × Option SuggestState :=
  let st0 : SuggestState := { unmatched := [], candidates := [] }
  let r1 := normCat sim vd "diseases" "disease" parsed.diseases st0
  let r2 := normCat sim vc "combos" "combo" parsed.combos r1.2
  let r3 := normCat sim vp "points" "point" parsed.points r2.2
  ({ parsed with diseases := r1.1, combos := r2.1, points := r3.1 },
   if r3.2.unmatched = [] ∧ r3.2.candidates = [] then none else some r3.2)

/-!
Vocabulary cache (`get_all_diseases` / `get_all_combos` /
`get_all_points`, lines 79–97)

Each getter runs a fixed Cypher query once per process (`@lru_cache()`)
and keeps the non-empty `name` fields. The cache state records, per
category, whether the getter has already run and with which result.
-/

def diseasesCql : String := "MATCH (d:Disease) RETURN DISTINCT d.name AS name"

def combosCql : String := "MATCH (c:AcupointCombo) RETURN DISTINCT c.name AS name"

def pointsCql : String := "MATCH (a:Acupoint) RETURN DISTINCT a.name AS name"

structure VocabCache where
  diseases : Option (List String)
  combos : Option (List String)
  points : Option (List String)

/-- `[r["name"] for r in data if r.get("name")]`: keep the truthy
(non-empty) string `name` fields of the returned records. -/
def extractNames (rows : List Record) : List String :=
  rows.filterMap fun r =>
    match assocGet r "name" with
    | some (PyVal.pstr s) => if s = "" then none else some s
    | _ => none

/-- `get_all_diseases()` under `@lru_cache()`: on a cache hit return the
memoized list with no store access, otherwise run the vocabulary query
(one observable store call) and memoize. Vocabulary queries are issued
without parameters. -/
def getAllDiseases (store : String → List (String × PyVal) → List Record)
    (cache : VocabCache) : List String × VocabCache × List Effect :=
  match cache.diseases with
  | some v => (v, cache, [])
  | none =>
      let v := extractNames (store diseasesCql [])
      (v, { cache with diseases := some v }, [Effect.storeQuery diseasesCql])

/-- `get_all_combos()` under `@lru_cache()`. -/
def getAllCombos (store : String → List (String × PyVal) → List Record)
    (cache : VocabCache) : List String × VocabCache × List Effect :=
  match cache.combos with
  | some v => (v, cache, [])
  | none =>
      let v := extractNames (store combosCql [])
      (v, { cache with combos := some v }, [Effect.storeQuery combosCql])

/-- `get_all_points()` under `@lru_cache()`. -/
def getAllPoints (store : String → List (String × PyVal) → List Record)
    (cache : VocabCache) : List String × VocabCache × List Effect :=
  match cache.points with
  | some v => (v, cache, [])
  | none =>
      let v := extractNames (store pointsCql [])
      (v, { cache with points := some v }, [Effect.storeQuery pointsCql])

/-- `normalize_entities(parsed)`: fetch the three vocabularies through
the cache (in source order), then rewrite the intent. -/
def normalizeEntities (sim : String → String → ℚ)
    (store : String → List (String × PyVal) → List Record)
    (cache : VocabCache) (parsed : Intent) :
    (Intent × Option SuggestState) × VocabCache × List Effect :=
  let fd := getAllDiseases store cache
  let fc := getAllCombos store fd.2.1
  let fp := getAllPoints store fc.2.1
  (normalizeCore sim fd.1 fc.1 fp.1 parsed, fp.2.1, fd.2.2 ++ fc.2.2 ++ fp.2.2)

/-!
Answer synthesis (`call_llm_for_answer`, lines 367–464, and
`call_llm_for_answer_no_kg`, lines 204–271)

Both functions short-circuit on `query_type == "unknown"` to a fixed
clarification request without calling the generation service; the
grounded one additionally short-circuits on an empty record set. On the
non-short-circuited path the generation service is called once (an
observable `genCall`); its text is returned verbatim on success, and a
path-specific fixed apology is returned when the call raises. The
question, entities and history only feed the outgoing messages of that
call, whose outcome is the `GenOutcome` parameter.
-/

/-- The entities dict `{"diseases": [...], "combos": [...], "points": [...]}`. -/
structure EntityDict where
  diseases : List String
  combos : List String
  points : List String
deriving DecidableEq, Repr

/-- Fixed clarification request returned for `query_type == "unknown"`
(identical text in both answer functions, lines 215–218 and 375–378). -/
def clarificationText : String :=
  "当前无法从问题中提取出明确的疾病、靳三针组合或穴位信息，建议你补充更具体的描述，例如“脑卒中后遗症常用哪些靳三针方案？”。"

/-- Fixed grounded-mode zero-record reply (lines 381–385). -/
def notFoundText : String :=
  "在目前已构建的靳三针知识图谱中，暂未检索到与该问题直接对应的结构化记录，可能是相关文献尚未收录或仍在整理中。请结合权威教材和临床指南进一步查证，本系统仅用于科研与教学参考。"

/-- Fixed grounded-mode degradation text on a failed generation call
(lines 460–464). -/
def kgApologyText : String :=
  "系统已成功从知识图谱中检索到若干条与问题相关的靳三针方案，但在生成自然语言总结时发生错误。建议直接查看原始 records 数据，并结合原文文献进行分析。"

/-- Fixed no-graph-mode degradation text on a failed generation call
(lines 268–271). -/
def noKgApologyText : String :=
  "当前在未调用知识图谱的前提下生成答案失败，建议稍后重试或在有 KG 模式下查看回答。"

/-- The grounded-mode disclaimer sentence the system instruction asks
the model to end with (line 421). -/
def groundedDisclaimer : String :=
  "以上内容仅基于已纳入的靳三针知识图谱与相关文献，供教学与科研参考，不构成个体化诊疗建议。"

/-- The no-graph-mode disclaimer sentence the system instruction asks
the model to end with (line 232). -/
def noKgDisclaimer : String :=
  "以上内容主要基于通用中医针灸与靳三针相关知识，供教学与科研参考，不构成个体化诊疗建议。"

/-- The no-graph-mode system instruction (lines 220–233, after
`.strip()`). -/
def noKgSystemPrompt : String :=
  "你是一个靳三针针灸领域的学术型问答助手。
当前模式为“仅 LLM（不依赖知识图谱）”，
请基于你已有的通用医学知识和中医针灸知识，
围绕用户问题进行回答，重点说明靳三针相关内容。

要求：
- 用中文专业、客观地回答，尽量结构清晰（可分点、分条）。
- 可以结合你已知的靳三针理论、常见取穴组合、常见适应证和疗效结论进行总结。
- 不能声称“来自本系统图谱”，也不要编造具体文献标题或编号。
- 不要给出具体处方或个体化诊疗建议（如“你应该去扎哪里”这类直指个人的说法）。
- 回答最后同样加一句提醒：
  “以上内容主要基于通用中医针灸与靳三针相关知识，供教学与科研参考，不构成个体化诊疗建议。”"

/-- The grounded-mode system instruction (lines 387–422, after
`.strip()`). -/
def groundedSystemPrompt : String :=
  "你是一个靳三针知识图谱问答助手。现在提供给你：
1）用户原始问题（当前轮）；
2）必要时提供的前文对话历史（多轮上下文）；
3）从 Neo4j 知识图谱检索到的 records（JSON 列表）；
4）解析出的 query_type 和实体（疾病、组合、穴位）。

请严格根据 records 中的信息，用中文生成一个“学术、客观、不过度推断、不给诊断/处方”的回答。
不要杜撰 records 里没有的结论。

不同 query_type 时的侧重点：
- disease_to_plans：
    围绕“该疾病有哪些靳三针治疗方案”，概括主穴组合、辅助穴位、电针/艾灸/药物配合、疗程和疗效结论等。
- combo_to_diseases：
    总结“该靳三针组合主要用于哪些疾病或病证”，可按系统或疾病列举。
- disease_combo_to_effect：
    围绕“该组合治疗该病的疗效证据”，说明研究设计（若有）、疗程、主要疗效指标。
- point_to_combos：
    总结“该穴位参与了哪些靳三针组合，这些组合主要用于哪些疾病”。
- disease_to_point_summary：
    以提纲式列出某病常用主穴、配穴（可区分主穴/配穴），不需要详细操作方法。
- combo_to_points：
    总结“该靳三针组合由哪些标准穴位、局部点和子组合构成”，
    可按主穴、局部点、子组合分类列出。

必须：
- 严格基于 records 中的字段，例如：
  - disease, plan_id, method_text, course_text, effect_text, effect_level,
    has_electroacupuncture, has_moxibustion, has_drug,
    main_combos, aux_combos, main_points, aux_points,
    combos, diseases 等。
- 可以适当合并相似方案做总结，但不要推断不存在的适应证。

回答最后加一句提醒：
“以上内容仅基于已纳入的靳三针知识图谱与相关文献，供教学与科研参考，不构成个体化诊疗建议。”"

/-- `call_llm_for_answer(question, records, query_type, entities,
history)`: the grounded-mode answer, plus the generation calls issued. -/
def callLlmForAnswer (outcome : GenOutcome) (question : String)
    (records : List Record) (queryType : String) (entities : EntityDict) :
    String × List Effect :=
  if queryType = "unknown" then (clarificationText, [])
  else if records.isEmpty then (notFoundText, [])
  else
    match outcome with
    | .success ans => (ans, [Effect.genCall])
    | .failure => (kgApologyText, [Effect.genCall])

/-- `call_llm_for_answer_no_kg(question, query_type, entities, history)`:
the no-graph-mode answer, plus the generation calls issued. -/
def callLlmForAnswerNoKg (outcome : GenOutcome) (question : String)
    (queryType : String) (entities : EntityDict) : String × List Effect :=
  if queryType = "unknown" then (clarificationText, [])
  else
    match outcome with
    | .success ans => (ans, [Effect.genCall])
    | .failure => (noKgApologyText, [Effect.genCall])

/-!
Intent parsing (`call_llm_for_parse`, lines 272–364)

The whole body sits inside one `try`: a generation call, a code-fence
strip, `json.loads`, and four `setdefault` repairs. Any exception —
the generation call raising, `json.loads` failing, or `setdefault` on a
non-dict value (`AttributeError`) — lands in the rule-based fallback.
`json.loads` is the Python standard library; it is a parameter
`jsonLoads : String → Option PyVal` of the embedding (`none` models a
raised `JSONDecodeError`). Python's `str.strip` / `str.splitlines` are
modelled by whitespace trim and splitting at newline. -/

/-- The code-fence repair (lines 325–332): trim, and if the text starts
with a backtick fence drop a fenced first and last line and re-trim. -/
def fenceStrip (content : String) : String :=
  let text := pyStrip content
  if pyStartsWith text "```" then
    let lines0 := pySplitLines text
    let lines1 := if lines0 ≠ [] ∧ pyStartsWith (lines0.headD "") "```"
                  then lines0.tail else lines0
    let lines2 := if lines1 ≠ [] ∧ pyStartsWith (lines1.getLastD "") "```"
                  then lines1.dropLast else lines1
    pyStrip (joinNl lines2)
  else text

/-- The rule-based fallback (lines 341–364): two ordered keyword rules
over the stripped question, then the unknown intent with empty lists. -/
def ruleFallback (question : String) : PyVal :=
  let q := pyStrip question
  if strContains q "颞三针" ∧
     (strContains q "什么病" ∨ strContains q "哪些病" ∨ strContains q "适应证") then
    .pdict [("query_type", .pstr "combo_to_diseases"), ("diseases", .plist []),
            ("combos", .plist [.pstr "颞三针"]), ("points", .plist [])]
  else if strContains q "脑卒中" then
    .pdict [("query_type", .pstr "disease_to_plans"),
            ("diseases", .plist [.pstr "脑卒中后遗症"]),
            ("combos", .plist []), ("points", .plist [])]
  else
    .pdict [("query_type", .pstr "unknown"), ("diseases", .plist []),
            ("combos", .plist []), ("points", .plist [])]

/-- `call_llm_for_parse(question, history)`: on a successful generation
whose (fence-stripped) text parses as a JSON object, apply the four
`setdefault` repairs and return the object; on a raised generation call,
a JSON parse failure, or a non-dict JSON value (whose `setdefault`
raises `AttributeError`), fall back to the keyword rules. -/
def callLlmForParse (jsonLoads : String → Option PyVal)
    (outcome : GenOutcome) (question : String) : PyVal :=
  match outcome with
  | .failure => ruleFallback question
  | .success content =>
      match jsonLoads (fenceStrip content) with
      | some (.pdict kvs) =>
          .pdict (pySetdefault (pySetdefault (pySetdefault (pySetdefault kvs
            "query_type" (.pstr "disease_to_plans"))
            "diseases" (.plist []))
            "combos" (.plist []))
            "points" (.plist []))
      | _ => ruleFallback question

/-!
Query dispatch (`build_and_run_query`, lines 477–685)

Six `query_type` branches (the `combo_to_points` branch appears twice in
the source, lines 610–639 and the unreachable duplicate 665–681, kept
here verbatim), each guarded by a required-entity check that raises
`ValueError` (modelled as `Except.error` with the message) before any
store access; only the first entity of a list is used. An executed query
is one observable `storeQuery` effect via `run_cypher`. Unhandled query
types log a warning and return an empty query text with no records.
Literal braces inside the Cypher texts are written `\x7b`/`\x7d`. -/

def diseaseToPlansCql : String :=
  "MATCH (d:Disease \x7bname: $disease_name\x7d)-[:HAS_PLAN]->(p:TreatmentPlan)
// 方案直接挂的组合 / 穴位
OPTIONAL MATCH (p)-[:MAIN_POINT]->(mainCombo:AcupointCombo)
OPTIONAL MATCH (p)-[:AUX_POINT]->(auxCombo:AcupointCombo)
OPTIONAL MATCH (p)-[:MAIN_POINT]->(mainPoint:Acupoint)
OPTIONAL MATCH (p)-[:AUX_POINT]->(auxPoint:Acupoint)
// ========= 组合内部包含的穴位 / 子组合 =========
OPTIONAL MATCH (mainCombo)-[:HAS_POINT]->(mainStdPoint:Acupoint)
OPTIONAL MATCH (mainCombo)-[:HAS_LOCAL_POINT]->(mainLocalPoint:ComboLocalPoint)
OPTIONAL MATCH (mainCombo)-[:HAS_COMBO]->(mainSubCombo:AcupointCombo)
OPTIONAL MATCH (auxCombo)-[:HAS_POINT]->(auxStdPoint:Acupoint)
OPTIONAL MATCH (auxCombo)-[:HAS_LOCAL_POINT]->(auxLocalPoint:ComboLocalPoint)
OPTIONAL MATCH (auxCombo)-[:HAS_COMBO]->(auxSubCombo:AcupointCombo)
// ========= 疾病级别的主穴/配穴汇总（*_SUMMARY） =========
OPTIONAL MATCH (d)-[:MAIN_POINT_SUMMARY]->(mp_sum)
OPTIONAL MATCH (d)-[:AUX_POINT_SUMMARY]->(ap_sum)
RETURN
    d.name AS disease,
    p.plan_id AS plan_id,
    p.method_text AS method_text,
    p.course_text AS course_text,
    p.effect_text AS effect_text,
    p.position_text AS position_text,
    p.effect_level AS effect_level,
    p.has_electroacupuncture AS has_electroacupuncture,
    p.has_moxibustion AS has_moxibustion,
    p.has_drug AS has_drug,
    collect(DISTINCT mainCombo.name) AS main_combos,
    collect(DISTINCT auxCombo.name)  AS aux_combos,
    collect(DISTINCT mainPoint.name) AS main_points,
    collect(DISTINCT auxPoint.name)  AS aux_points,
    collect(DISTINCT mainStdPoint.name)        AS main_combo_std_points,
    collect(DISTINCT mainLocalPoint.name)      AS main_combo_local_points,
    collect(DISTINCT mainSubCombo.name)        AS main_combo_sub_combos,
    collect(DISTINCT auxStdPoint.name)         AS aux_combo_std_points,
    collect(DISTINCT auxLocalPoint.name)       AS aux_combo_local_points,
    collect(DISTINCT auxSubCombo.name)         AS aux_combo_sub_combos,
    collect(DISTINCT CASE WHEN mp_sum:Acupoint      THEN mp_sum.name END) AS disease_main_points,
    collect(DISTINCT CASE WHEN mp_sum:AcupointCombo THEN mp_sum.name END) AS disease_main_combos,
    collect(DISTINCT CASE WHEN ap_sum:Acupoint      THEN ap_sum.name END) AS disease_aux_points,
    collect(DISTINCT CASE WHEN ap_sum:AcupointCombo THEN ap_sum.name END) AS disease_aux_combos
ORDER BY p.plan_id
LIMIT $limit"

def comboToDiseasesCql : String :=
  "MATCH (c:AcupointCombo \x7bname: $combo_name\x7d)
OPTIONAL MATCH (d:Disease)-[:HAS_PLAN]->(p:TreatmentPlan)
 WHERE (p)-[:MAIN_POINT]->(c) OR (p)-[:AUX_POINT]->(c)
RETURN
    c.name AS combo_name,
    c.indications AS combo_indications,
    c.acupuncture_method_json AS combo_acu_method,
    collect(DISTINCT d.name) AS diseases,
    collect(DISTINCT p.plan_id) AS plan_ids"

def diseaseComboToEffectCql : String :=
  "MATCH (d:Disease \x7bname: $disease_name\x7d)-[:HAS_PLAN]->(p:TreatmentPlan)
MATCH (c:AcupointCombo \x7bname: $combo_name\x7d)
WHERE (p)-[:MAIN_POINT]->(c) OR (p)-[:AUX_POINT]->(c)
RETURN
    d.name AS disease,
    c.name AS combo_name,
    p.plan_id AS plan_id,
    p.method_text AS method_text,
    p.course_text AS course_text,
    p.effect_text AS effect_text,
    p.position_text AS position_text,
    p.effect_level AS effect_level,
    p.has_electroacupuncture AS has_electroacupuncture,
    p.has_moxibustion AS has_moxibustion,
    p.has_drug AS has_drug
LIMIT $limit"

def comboToPointsCql : String :=
  "MATCH (c:AcupointCombo \x7bname: $combo_name\x7d)
OPTIONAL MATCH (c)-[r1:HAS_POINT]->(stdPoint:Acupoint)
OPTIONAL MATCH (c)-[r2:HAS_LOCAL_POINT]->(localPoint:ComboLocalPoint)
OPTIONAL MATCH (c)-[:HAS_COMBO]->(subCombo:AcupointCombo)
RETURN
    c.name AS combo_name,
    // 标准腧穴 + 刺法说明
    collect(
        DISTINCT \x7b
            name: stdPoint.name,
            needle_method: r1.needle_method
        \x7d
    ) AS std_points,
    // 局部点 + 刺法说明
    collect(
        DISTINCT \x7b
            name: localPoint.name,
            needle_method: r2.needle_method
        \x7d
    ) AS local_points,
    // 子组合名称
    collect(DISTINCT subCombo.name) AS sub_combos"

def diseaseToPointSummaryCql : String :=
  "MATCH (d:Disease \x7bname: $disease_name\x7d)
OPTIONAL MATCH (d)-[:MAIN_POINT_SUMMARY]->(mp)
OPTIONAL MATCH (d)-[:AUX_POINT_SUMMARY]->(ap)
RETURN
    d.name AS disease,
    collect(DISTINCT CASE WHEN mp:Acupoint      THEN mp.name END) AS main_points,
    collect(DISTINCT CASE WHEN mp:AcupointCombo THEN mp.name END) AS main_combos,
    collect(DISTINCT CASE WHEN ap:Acupoint      THEN ap.name END) AS aux_points,
    collect(DISTINCT CASE WHEN ap:AcupointCombo THEN ap.name END) AS aux_combos"

/-- The unreachable second `combo_to_points` template (lines 669–679):
the bare-names variant, shadowed by the first branch. -/
def comboToPointsCql2 : String :=
  "MATCH (c:AcupointCombo \x7bname: $combo_name\x7d)
OPTIONAL MATCH (c)-[:HAS_POINT]->(stdPoint:Acupoint)
OPTIONAL MATCH (c)-[:HAS_LOCAL_POINT]->(localPoint:ComboLocalPoint)
OPTIONAL MATCH (c)-[:HAS_COMBO]->(subCombo:AcupointCombo)
RETURN
    c.name AS combo_name,
    collect(DISTINCT stdPoint.name)   AS std_points,
    collect(DISTINCT localPoint.name) AS local_points,
    collect(DISTINCT subCombo.name)   AS sub_combos"

/-- `build_and_run_query(parsed, max_plans)`: dispatch on
`parsed["query_type"]`; `Except.error` is the raised `ValueError` of a
failed required-entity precondition. The returned effect list exposes
the `run_cypher` executions (one per successful dispatch, none on a
validation error or an unhandled query type). -/
def buildAndRunQuery (store : String → List (String × PyVal) → List Record)
    (parsed : Intent) (maxPlans : Int) :
    Except String (String × List Record) × List Effect :=
  let qt := parsed.query_type
  let diseases := parsed.diseases
  let combos := parsed.combos
  if qt = "disease_to_plans" then
    if diseases = [] then (.error "disease_to_plans 需要至少一个疾病实体。", [])
    else
      let params := [("disease_name", PyVal.pstr (diseases.headD "")),
                     ("limit", PyVal.pnum maxPlans)]
      (.ok (diseaseToPlansCql, store diseaseToPlansCql params),
       [Effect.storeQuery diseaseToPlansCql])
  else if qt = "combo_to_diseases" then
    if combos = [] then (.error "combo_to_diseases 需要至少一个靳三针组合实体。", [])
    else
      let params := [("combo_name", PyVal.pstr (combos.headD ""))]
      (.ok (comboToDiseasesCql, store comboToDiseasesCql params),
       [Effect.storeQuery comboToDiseasesCql])
  else if qt = "disease_combo_to_effect" then
    if diseases = [] ∨ combos = [] then
      (.error "disease_combo_to_effect 需要同时包含疾病和组合实体。", [])
    else
      let params := [("disease_name", PyVal.pstr (diseases.headD "")),
                     ("combo_name", PyVal.pstr (combos.headD "")),
                     ("limit", PyVal.pnum maxPlans)]
      (.ok (diseaseComboToEffectCql, store diseaseComboToEffectCql params),
       [Effect.storeQuery diseaseComboToEffectCql])
  else if qt = "combo_to_points" then
    if combos = [] then (.error "combo_to_points 需要至少一个靳三针组合实体。", [])
    else
      let params := [("combo_name", PyVal.pstr (combos.headD ""))]
      (.ok (comboToPointsCql, store comboToPointsCql params),
       [Effect.storeQuery comboToPointsCql])
  else if qt = "disease_to_point_summary" then
    if diseases = [] then (.error "disease_to_point_summary 需要至少一个疾病实体。", [])
    else
      let params := [("disease_name", PyVal.pstr (diseases.headD ""))]
      (.ok (diseaseToPointSummaryCql, store diseaseToPointSummaryCql params),
       [Effect.storeQuery diseaseToPointSummaryCql])
  else if qt = "combo_to_points" then
    -- dead branch: same guard as the fourth one above (source lines 665–681)
    if combos = [] then (.error "combo_to_points 需要至少一个靳三针组合实体。", [])
    else
      let params := [("combo_name", PyVal.pstr (combos.headD ""))]
      (.ok (comboToPointsCql2, store comboToPointsCql2 params),
       [Effect.storeQuery comboToPointsCql2])
  else
    (.ok ("", []), [])

/-!
The endpoint (`qa_endpoint`, lines 711–805)

The request model keeps the fields the handler branches on: the raw
question, `options.max_plans` (already defaulted to 10 by pydantic) and
the effective `use_kg` boolean. The parsed intent — the value
`call_llm_for_parse` produced for this request, projected onto the
intent fields the handler reads — is a parameter, as is the outcome of
the later answer-generation call. `history` only flows into the
generation calls and is not modelled. A raised `ValueError` from
dispatch is caught by the generic handler and surfaced as HTTP 500 with
the message; the empty-question guard raises HTTP 400 first.
-/

structure QAReq where
  question : String
  max_plans : Int
  use_kg : Bool

structure QAResponse where
  answer : String
  query_type : Option String
  entities : Option EntityDict
  cypher : Option String
  records : Option (List Record)
  entity_suggest : Option SuggestState

inductive QAResult where
  | httpError (code : Nat) (detail : String)
  | ok (resp : QAResponse)

/-- `qa_endpoint(req)`: empty-question guard, parse (outcome `parsed`),
normalization, then the use-kg / unknown / dispatch branching. -/
def qaEndpoint (sim : String → String → ℚ)
    (store : String → List (String × PyVal) → List Record)
    (cache : VocabCache) (answerGen : GenOutcome) (req : QAReq)
    (parsed : Intent) : QAResult × VocabCache × List Effect :=
  if pyStrip req.question = "" then
    (.httpError 400 "问题不能为空。", cache, [])
  else
    let question := pyStrip req.question
    let nr := normalizeEntities sim store cache parsed
    let parsedNorm := nr.1.1
    let entitySuggest := nr.1.2
    let cache2 := nr.2.1
    let eff1 := nr.2.2
    let queryType := parsedNorm.query_type
    let entities : EntityDict :=
      ⟨parsedNorm.diseases, parsedNorm.combos, parsedNorm.points⟩
    if req.use_kg = false then
      let a := callLlmForAnswerNoKg answerGen question queryType entities
      (.ok ⟨a.1, some queryType, some entities, none, none, entitySuggest⟩,
       cache2, eff1 ++ a.2)
    else if queryType = "unknown" then
      let a := callLlmForAnswer answerGen question [] queryType entities
      (.ok ⟨a.1, some queryType, some entities, none, some [], entitySuggest⟩,
       cache2, eff1 ++ a.2)
    else
      match buildAndRunQuery store parsedNorm req.max_plans with
      | (.error e, eff2) =>
          (.httpError 500 ("服务器内部错误：" ++ e), cache2, eff1 ++ eff2)
      | (.ok (cypher, records), eff2) =>
          let a := callLlmForAnswer answerGen question records queryType entities
          (.ok ⟨a.1, some queryType, some entities,
                (if cypher = "" then none else some cypher), some records,
                entitySuggest⟩,
           cache2, eff1 ++ eff2 ++ a.2)

/-!
Small auxiliary definitions for the statements and their concrete
instantiations
-/

/-- The six intent types named by the specification's data model. -/
def specSixTypes : List String :=
  ["disease_to_plans", "combo_to_diseases", "disease_combo_to_effect",
   "combo_to_points", "disease_to_point_summary", "unknown"]

/-- The five query types `build_and_run_query` actually handles. -/
def handledTypes : List String :=
  ["disease_to_plans", "combo_to_diseases", "disease_combo_to_effect",
   "combo_to_points", "disease_to_point_summary"]

/-- The `query_type` field of a parse result, when it is a dict. -/
def pvQueryType (v : PyVal) : Option PyVal :=
  match v with
  | .pdict kvs => assocGet kvs "query_type"
  | _ => none

/-- A parse result is a dict carrying all four intent fields. -/
def hasIntentFields (v : PyVal) : Prop :=
  match v with
  | .pdict kvs =>
      (assocGet kvs "query_type").isSome ∧ (assocGet kvs "diseases").isSome ∧
      (assocGet kvs "combos").isSome ∧ (assocGet kvs "points").isSome
  | _ => False

/-- The fallback intent when no keyword rule matches. -/
def unknownIntentPy : PyVal :=
  .pdict [("query_type", .pstr "unknown"), ("diseases", .plist []),
          ("combos", .plist []), ("points", .plist [])]

/-- A concrete similarity function for instantiations: 1 on equal
strings, 0 otherwise (a legal behaviour of the difflib ratio). -/
def simEq : String → String → ℚ := fun a b => if a = b then 1 else 0

/-- A concrete store returning no records, for instantiations. -/
def emptyStore : String → List (String × PyVal) → List Record := fun _ _ => []

/-- A valid generation output whose `query_type` is the
`point_to_combos` value offered by the parser's own system instruction. -/
def ptcJson : String :=
  "\x7b\"query_type\": \"point_to_combos\", \"diseases\": [], \"combos\": [], \"points\": []\x7d"

/-- What Python's `json.loads` returns on `ptcJson`. -/
def ptcDict : PyVal :=
  .pdict [("query_type", .pstr "point_to_combos"), ("diseases", .plist []),
          ("combos", .plist []), ("points", .plist [])]

/-- A `json.loads` model that parses exactly the `ptcJson` document (its
value on that input is what the real `json.loads` produces). -/
def jsonLoadsPtc : String → Option PyVal :=
  fun s => if s = ptcJson then some ptcDict else none

/-!
Lemmas

The descending candidate order
-/

theorem tupGe_refl (p : ℚ × String) : tupGe p p :=
  Or.inr ⟨rfl, le_refl _⟩

theorem tupGe_total (p q : ℚ × String) : tupGe p q ∨ tupGe q p := by
  rcases lt_trichotomy p.1 q.1 with h | h | h
  · exact Or.inr (Or.inl h)
  · rcases le_total p.2 q.2 with h2 | h2
    · exact Or.inr (Or.inr ⟨h.symm, h2⟩)
    · exact Or.inl (Or.inr ⟨h, h2⟩)
  · exact Or.inl (Or.inl h)

theorem tupGe_trans {p q r : ℚ × String} (h1 : tupGe p q) (h2 : tupGe q r) :
    tupGe p r := by
  rcases h1 with h1 | ⟨e1, l1⟩ <;> rcases h2 with h2 | ⟨e2, l2⟩
  · exact Or.inl (lt_trans h2 h1)
  · exact Or.inl (by rw [← e2]; exact h1)
  · exact Or.inl (by rw [e1]; exact h2)
  · exact Or.inr ⟨e1.trans e2, le_trans l2 l1⟩

theorem tupGe_antisymm {p q : ℚ × String} (h1 : tupGe p q) (h2 : tupGe q p) :
    p = q := by
  rcases h1 with h1 | ⟨e1, l1⟩
  · rcases h2 with h2 | ⟨e2, l2⟩
    · exact absurd h1 (lt_asymm h2)
    · exact absurd h1 (by rw [e2]; exact lt_irrefl _)
  · rcases h2 with h2 | ⟨e2, l2⟩
    · exact absurd h2 (by rw [e1]; exact lt_irrefl _)
    · exact Prod.ext e1 (le_antisymm l2 l1)

theorem tupGe_fst {p q : ℚ × String} (h : tupGe p q) : q.1 ≤ p.1 := by
  rcases h with h | ⟨e, _⟩
  · exact le_of_lt h
  · exact le_of_eq e.symm

theorem mem_insertDesc {x a : ℚ × String} {l : List (ℚ × String)} :
    x ∈ insertDesc a l ↔ x = a ∨ x ∈ l := by
  induction l with
  | nil => simp [insertDesc]
  | cons b bs ih =>
      simp only [insertDesc]
      split
      · simp [List.mem_cons]
      · simp only [List.mem_cons, ih]
        tauto

/-- The head of the descending sort of a non-empty list is a maximum. -/
theorem sortDesc_head {l : List (ℚ × String)} (h : l ≠ []) :
    ∃ m, (sortDesc l).head? = some m ∧ m ∈ l ∧ ∀ x ∈ l, tupGe m x := by
  induction l with
  | nil => exact absurd rfl h
  | cons a as ih =>
      cases as with
      | nil =>
          refine ⟨a, by simp [sortDesc, insertDesc], by simp, ?_⟩
          intro x hx
          rw [List.mem_singleton.mp hx]
          exact tupGe_refl a
      | cons b bs =>
          obtain ⟨m, hm1, hm2, hm3⟩ := ih (by simp)
          obtain ⟨t, ht⟩ : ∃ t, sortDesc (b :: bs) = m :: t := by
            cases hsd : sortDesc (b :: bs) with
            | nil => rw [hsd] at hm1; simp at hm1
            | cons y ys =>
                rw [hsd] at hm1
                simp only [List.head?] at hm1
                exact ⟨ys, by rw [Option.some.injEq] at hm1; rw [hm1]⟩
          by_cases hc : tupGe a m
          · refine ⟨a, ?_, by simp, ?_⟩
            · rw [show sortDesc (a :: b :: bs) = insertDesc a (sortDesc (b :: bs)) from rfl,
                  ht]
              simp [insertDesc, if_pos hc]
            · intro x hx
              rcases List.mem_cons.mp hx with rfl | hx
              · exact tupGe_refl x
              · exact tupGe_trans hc (hm3 x hx)
          · have hma := (tupGe_total a m).resolve_left hc
            refine ⟨m, ?_, List.mem_cons_of_mem _ hm2, ?_⟩
            · rw [show sortDesc (a :: b :: bs) = insertDesc a (sortDesc (b :: bs)) from rfl,
                  ht]
              simp [insertDesc, if_neg hc]
            · intro x hx
              rcases List.mem_cons.mp hx with rfl | hx
              · exact hma
              · exact hm3 x hx

/-!
`get_close_matches` and `_best_match`
-/

theorem mem_scoredList {sim : String → String → ℚ} {word : String}
    {poss : List String} {cutoff : ℚ} {r : ℚ} {x : String} :
    (r, x) ∈ scoredList sim word poss cutoff ↔
      x ∈ poss ∧ cutoff ≤ sim x word ∧ r = sim x word := by
  unfold scoredList
  rw [List.mem_filterMap]
  constructor
  · rintro ⟨y, hy, hfy⟩
    split at hfy
    · rw [Option.some.injEq, Prod.mk.injEq] at hfy
      obtain ⟨h1, h2⟩ := hfy
      subst h2
      exact ⟨hy, by assumption, h1.symm⟩
    · exact absurd hfy (by simp)
  · rintro ⟨hmem, hle, heq⟩
    exact ⟨x, hmem, by rw [if_pos hle, heq]⟩

theorem scoredList_snd_mem {sim word poss cutoff} {m : ℚ × String}
    (h : m ∈ scoredList sim word poss cutoff) : m.2 ∈ poss := by
  obtain ⟨r, x⟩ := m
  exact (mem_scoredList.mp h).1

theorem getCloseMatches_of_scored_nil {sim word poss cutoff} {n : Nat}
    (h : scoredList sim word poss cutoff = []) :
    getCloseMatches sim word poss n cutoff = [] := by
  unfold getCloseMatches
  rw [h]
  simp [sortDesc]

theorem getCloseMatches_head {sim word poss cutoff} {n : Nat} (hn : n ≠ 0)
    (hne : scoredList sim word poss cutoff ≠ []) :
    ∃ m, m ∈ scoredList sim word poss cutoff ∧
      (∀ x ∈ scoredList sim word poss cutoff, tupGe m x) ∧
      (getCloseMatches sim word poss n cutoff).head? = some m.2 := by
  obtain ⟨m, h1, h2, h3⟩ := sortDesc_head hne
  refine ⟨m, h2, h3, ?_⟩
  unfold getCloseMatches
  obtain ⟨t, ht⟩ : ∃ t, sortDesc (scoredList sim word poss cutoff) = m :: t := by
    cases hsd : sortDesc (scoredList sim word poss cutoff) with
    | nil => rw [hsd] at h1; simp at h1
    | cons y ys =>
        rw [hsd] at h1
        simp only [List.head?] at h1
        exact ⟨ys, by rw [Option.some.injEq] at h1; rw [h1]⟩
  rw [ht]
  cases n with
  | zero => exact absurd rfl hn
  | succ k => simp

theorem getCloseMatches_cons_facts {sim word poss cutoff} {n : Nat}
    {b : String} {rest : List String}
    (h : getCloseMatches sim word poss n cutoff = b :: rest) :
    n ≠ 0 ∧ scoredList sim word poss cutoff ≠ [] := by
  constructor
  · rintro rfl
    rw [show getCloseMatches sim word poss 0 cutoff = [] from by
      unfold getCloseMatches; simp] at h
    exact List.cons_ne_nil _ _ h.symm
  · intro hnil
    rw [getCloseMatches_of_scored_nil hnil] at h
    exact List.cons_ne_nil _ _ h.symm

/-- What a successful `_best_match` means: the adopted candidate is the
`tupGe`-maximum of the cutoff survivors, and its reversed-order score is
not below the cutoff. -/
theorem bestMatch_some_spec {sim : String → String → ℚ} {name : String}
    {cands : List String} {cutoff : ℚ} {n : Nat} {b : String}
    (h : (bestMatch sim name cands cutoff n).1 = some b) :
    name ≠ "" ∧ cands ≠ [] ∧ n ≠ 0 ∧
    ∃ m, m ∈ scoredList sim name cands cutoff ∧
      (∀ x ∈ scoredList sim name cands cutoff, tupGe m x) ∧
      m.2 = b ∧ ¬ sim name b < cutoff := by
  unfold bestMatch at h
  split at h
  · simp at h
  · next hg =>
    push_neg at hg
    obtain ⟨hname, hcands⟩ := hg
    refine ⟨hname, hcands, ?_⟩
    cases hgc : getCloseMatches sim name cands n cutoff with
    | nil => rw [hgc] at h; simp at h
    | cons best rest =>
        rw [hgc] at h
        simp only at h
        split at h
        · simp at h
        · next hlt =>
          rw [Option.some.injEq] at h
          subst h
          obtain ⟨hn, hsne⟩ := getCloseMatches_cons_facts hgc
          obtain ⟨m, hm1, hm2, hm3⟩ := getCloseMatches_head hn hsne
          rw [hgc] at hm3
          simp only [List.head?, Option.some.injEq] at hm3
          exact ⟨hn, m, hm1, hm2, hm3.symm, hlt⟩

/-- Converse construction: a `tupGe`-maximal survivor whose reversed
score clears the cutoff is what `_best_match` adopts. -/
theorem bestMatch_eq_some {sim : String → String → ℚ} {name : String}
    {cands : List String} {cutoff : ℚ} {n : Nat}
    (hname : name ≠ "") (hn : n ≠ 0) {m : ℚ × String}
    (hm : m ∈ scoredList sim name cands cutoff)
    (hmax : ∀ x ∈ scoredList sim name cands cutoff, tupGe m x)
    (hsc : ¬ sim name m.2 < cutoff) :
    (bestMatch sim name cands cutoff n).1 = some m.2 := by
  have hcands : cands ≠ [] := List.ne_nil_of_mem (scoredList_snd_mem hm)
  unfold bestMatch
  rw [if_neg (by push_neg; exact ⟨hname, hcands⟩)]
  obtain ⟨m', hm'1, hm'2, hm'3⟩ := getCloseMatches_head hn (List.ne_nil_of_mem hm)
  have hmm : m = m' := tupGe_antisymm (hmax m' hm'1) (hm'2 m hm)
  subst hmm
  cases hgc : getCloseMatches sim name cands n cutoff with
  | nil => rw [hgc] at hm'3; simp at hm'3
  | cons best rest =>
      rw [hgc] at hm'3
      simp only [List.head?, Option.some.injEq] at hm'3
      subst hm'3
      simp only
      rw [if_neg hsc]

/-- Cutoff monotonicity of `_best_match`: the adopted candidate at any
cutoff is the global `(ratio, string)`-maximum of the survivors, so
lowering the cutoff keeps both survival and the score check. -/
theorem bestMatch_mono_aux {sim : String → String → ℚ} {name : String}
    {cands : List String} {n : Nat} {c1 c2 : ℚ} (h12 : c1 ≤ c2) {b : String}
    (hm : (bestMatch sim name cands c2 n).1 = some b) :
    (bestMatch sim name cands c1 n).1 = some b := by
  obtain ⟨hname, hcands, hn, m, hmem, hmax, hmb, hsc⟩ := bestMatch_some_spec hm
  obtain ⟨r, x⟩ := m
  obtain ⟨hx, hle, hr⟩ := mem_scoredList.mp hmem
  simp only at hmb
  subst hmb
  -- the c2-survivor also survives at c1
  have hmem1 : (r, x) ∈ scoredList sim name cands c1 :=
    mem_scoredList.mpr ⟨hx, le_trans h12 hle, hr⟩
  -- and it stays maximal: any c1-survivor beating it would outscore it,
  -- hence survive at c2 as well, contradicting maximality there
  have hmax1 : ∀ y ∈ scoredList sim name cands c1, tupGe (r, x) y := by
    rintro ⟨ry, y⟩ hy
    obtain ⟨hy1, hy2, hy3⟩ := mem_scoredList.mp hy
    rcases tupGe_total (r, x) (ry, y) with hge | hge
    · exact hge
    · have hyc2 : (ry, y) ∈ scoredList sim name cands c2 := by
        refine mem_scoredList.mpr ⟨hy1, ?_, hy3⟩
        have hrry : r ≤ ry := tupGe_fst hge
        calc c2 ≤ sim x name := hle
          _ = r := hr.symm
          _ ≤ ry := hrry
          _ = sim y name := hy3
      have := hmax _ hyc2
      rw [tupGe_antisymm hge this]
      exact tupGe_refl _
  exact bestMatch_eq_some hname hn hmem1 hmax1
    (fun hlt => hsc (lt_of_lt_of_le hlt h12))

/-!
`normElem`: the per-mention substitution
-/

/-- Each normalized element is the original mention or a vocabulary
member. -/
theorem normElem_eq_or_mem (sim : String → String → ℚ) (vocab : List String)
    (d : String) :
    normElem sim vocab d = d ∨ normElem sim vocab d ∈ vocab := by
  unfold normElem
  cases h : (bestMatch sim d vocab ratCutoff 5).1 with
  | none => exact Or.inl rfl
  | some b =>
      refine Or.inr ?_
      obtain ⟨-, -, -, m, hm, -, hmb, -⟩ := bestMatch_some_spec h
      exact hmb ▸ scoredList_snd_mem hm

/-- A vocabulary member is matched to itself when the ratio function
scores identical strings 1 and distinct strings strictly below 1. -/
theorem normElem_self_of_mem {sim : String → String → ℚ} {vocab : List String}
    (hself : ∀ x, sim x x = 1) (hlt : ∀ x y, x ≠ y → sim x y < 1)
    {b : String} (hb : b ∈ vocab) : normElem sim vocab b = b := by
  by_cases hbe : b = ""
  · subst hbe
    unfold normElem bestMatch
    rw [if_pos (Or.inl rfl)]
  · have hmem : ((1 : ℚ), b) ∈ scoredList sim b vocab ratCutoff :=
      mem_scoredList.mpr ⟨hb, by rw [hself b]; decide, (hself b).symm⟩
    have hmax : ∀ y ∈ scoredList sim b vocab ratCutoff, tupGe ((1 : ℚ), b) y := by
      rintro ⟨ry, y⟩ hy
      obtain ⟨hy1, hy2, hy3⟩ := mem_scoredList.mp hy
      by_cases hyb : y = b
      · subst hyb
        rw [hy3, hself y]
        exact tupGe_refl _
      · exact Or.inl (by rw [hy3]; exact hlt y b hyb)
    have := bestMatch_eq_some (n := 5) hbe (by decide) hmem hmax
      (by rw [hself b]; decide)
    unfold normElem
    rw [this]

/-- Idempotence of the per-mention substitution under the two ratio
facts. -/
theorem normElem_idem {sim : String → String → ℚ} {vocab : List String}
    (hself : ∀ x, sim x x = 1) (hlt : ∀ x y, x ≠ y → sim x y < 1)
    (d : String) :
    normElem sim vocab (normElem sim vocab d) = normElem sim vocab d := by
  cases h : (bestMatch sim d vocab ratCutoff 5).1 with
  | none =>
      have hd : normElem sim vocab d = d := by unfold normElem; rw [h]
      rw [hd]
      exact hd
  | some b =>
      have hd : normElem sim vocab d = b := by unfold normElem; rw [h]
      have hbv : b ∈ vocab := by
        obtain ⟨-, -, -, m, hm, -, hmb, -⟩ := bestMatch_some_spec h
        exact hmb ▸ scoredList_snd_mem hm
      rw [hd, normElem_self_of_mem hself hlt hbv]

/-!
The category loop of `normalize_entities`
-/

/-- The entity list a category loop produces is exactly the element-wise
substitution — same length, same order, no drops. -/
theorem normCat_fst (sim : String → String → ℚ) (vocab : List String)
    (catKey typeName : String) (mentions : List String) (st : SuggestState) :
    (normCat sim vocab catKey typeName mentions st).1 =
      mentions.map (normElem sim vocab) := by
  induction mentions generalizing st with
  | nil => rfl
  | cons d rest ih =>
      cases h : (bestMatch sim d vocab ratCutoff 5).1 with
      | some b =>
          have hne : normElem sim vocab d = b := by unfold normElem; rw [h]
          simp only [normCat, h, List.map_cons, hne]
          rw [ih]
      | none =>
          have hne : normElem sim vocab d = d := by unfold normElem; rw [h]
          simp only [normCat, h, List.map_cons, hne]
          rw [ih]

theorem candSet_unmatched (st : SuggestState) (d cat : String)
    (v : List String) : (candSet st d cat v).unmatched = st.unmatched := rfl

theorem normCat_unmatched_mono (sim : String → String → ℚ)
    (vocab : List String) (catKey typeName : String) (mentions : List String)
    (st : SuggestState) {e : String × String} (he : e ∈ st.unmatched) :
    e ∈ (normCat sim vocab catKey typeName mentions st).2.unmatched := by
  induction mentions generalizing st with
  | nil => exact he
  | cons d rest ih =>
      cases h : (bestMatch sim d vocab ratCutoff 5).1 with
      | some b =>
          simp only [normCat, h]
          split
          · exact ih _ (by rw [candSet_unmatched]; exact he)
          · exact ih _ he
      | none =>
          simp only [normCat, h]
          split
          · exact ih _ (by rw [candSet_unmatched]; simp; exact Or.inl he)
          · exact ih _ (by simp; exact Or.inl he)

theorem normCat_unmatched_adds (sim : String → String → ℚ)
    (vocab : List String) (catKey typeName : String) (mentions : List String)
    (st : SuggestState) {d : String} (hd : d ∈ mentions)
    (hnone : (bestMatch sim d vocab ratCutoff 5).1 = none) :
    (typeName, d) ∈ (normCat sim vocab catKey typeName mentions st).2.unmatched := by
  induction mentions generalizing st with
  | nil => exact absurd hd (List.not_mem_nil d)
  | cons a rest ih =>
      rcases List.mem_cons.mp hd with rfl | hdr
      · simp only [normCat, hnone]
        split
        · exact normCat_unmatched_mono _ _ _ _ _ _
            (by rw [candSet_unmatched]; simp)
        · exact normCat_unmatched_mono _ _ _ _ _ _ (by simp)
      · cases h : (bestMatch sim a vocab ratCutoff 5).1 with
        | some b => simp only [normCat, h]; split <;> exact ih _ hdr
        | none => simp only [normCat, h]; split <;> exact ih _ hdr

/-!
The `candidates` dict
-/

theorem assocGet_assocSet_self {α : Type} (m : List (String × α)) (k : String)
    (v : α) : assocGet (assocSet m k v) k = some v := by
  induction m with
  | nil => simp [assocSet, assocGet]
  | cons p rest ih =>
      obtain ⟨k', v'⟩ := p
      by_cases hk : k' = k
      · simp [assocSet, hk, assocGet]
      · simp [assocSet, hk, assocGet, ih]

theorem assocGet_assocSet_ne {α : Type} (m : List (String × α)) (k : String)
    (v : α) {k' : String} (hk : k' ≠ k) :
    assocGet (assocSet m k v) k' = assocGet m k' := by
  have hkk : ¬ k = k' := fun h => hk h.symm
  induction m with
  | nil => simp [assocSet, assocGet, hkk]
  | cons p rest ih =>
      obtain ⟨k0, v0⟩ := p
      by_cases h0 : k0 = k
      · subst h0
        simp only [assocSet, if_pos rfl, assocGet, if_neg hkk]
      · simp only [assocSet, if_neg h0, assocGet]
        split <;> simp_all

theorem candGet_candSet_self (st : SuggestState) (d cat : String)
    (v : List String) : candGet (candSet st d cat v) d cat = some v := by
  unfold candGet candSet
  simp only [assocGet_assocSet_self, assocGet_assocSet_self]

theorem candGet_candSet_ne_d (st : SuggestState) (d cat : String)
    (v : List String) {d' cat' : String} (h : d' ≠ d) :
    candGet (candSet st d cat v) d' cat' = candGet st d' cat' := by
  unfold candGet candSet
  simp only [assocGet_assocSet_ne _ _ _ h]

theorem candGet_candSet_ne_cat (st : SuggestState) (d cat : String)
    (v : List String) {cat' : String} (h : cat' ≠ cat) :
    candGet (candSet st d cat v) d cat' = candGet st d cat' := by
  unfold candGet candSet
  simp only [assocGet_assocSet_self]
  have hcc : ¬ cat = cat' := fun hh => h hh.symm
  cases hg : assocGet st.candidates d with
  | none => simp [hg, assocGet_assocSet_ne _ _ _ h, assocGet, hcc]
  | some inner => simp [hg, assocGet_assocSet_ne _ _ _ h]

theorem candGet_unmatched_irrel (st : SuggestState) (u : List (String × String))
    (d cat : String) : candGet { st with unmatched := u } d cat = candGet st d cat := rfl

/-- A `candidates[d][cat]` binding survives a category loop whenever
every later write to that same slot writes the same value (writes are
the deterministic `_best_match` candidate lists, so re-processing the
same mention in the same category rewrites the same value, and other
mentions or categories touch other slots). -/
theorem normCat_candGet_stable (sim : String → String → ℚ)
    (vocab : List String) (catKey typeName : String) (mentions : List String)
    (st : SuggestState) {d cat : String} {v : List String}
    (hst : candGet st d cat = some v)
    (hpres : ∀ x ∈ mentions, x = d → catKey = cat →
      (bestMatch sim x vocab ratCutoff 5).2 = v) :
    candGet (normCat sim vocab catKey typeName mentions st).2 d cat = some v := by
  induction mentions generalizing st with
  | nil => exact hst
  | cons a rest ih =>
      have hpres' : ∀ x ∈ rest, x = d → catKey = cat →
          (bestMatch sim x vocab ratCutoff 5).2 = v :=
        fun x hx => hpres x (List.mem_cons_of_mem _ hx)
      have hwrite : ∀ st' : SuggestState, candGet st' d cat = some v →
          candGet (candSet st' a catKey ((bestMatch sim a vocab ratCutoff 5).2)) d cat
            = some v := by
        intro st' hst'
        by_cases had : d = a
        · subst had
          by_cases hck : cat = catKey
          · subst hck
            rw [hpres d (List.mem_cons_self _ _) rfl rfl]
            exact candGet_candSet_self _ _ _ _
          · rw [candGet_candSet_ne_cat _ _ _ _ hck]
            exact hst'
        · rw [candGet_candSet_ne_d _ _ _ _ had]
          exact hst'
      cases h : (bestMatch sim a vocab ratCutoff 5).1 with
      | some b =>
          simp only [normCat, h]
          split
          · exact ih _ (hwrite st hst) hpres'
          · exact ih _ hst hpres'
      | none =>
          simp only [normCat, h]
          split
          · exact ih _ (hwrite _ (by rw [candGet_unmatched_irrel]; exact hst)) hpres'
          · exact ih _ (by rw [candGet_unmatched_irrel]; exact hst) hpres'

/-- An unmatched mention with a non-empty surfaced candidate list gets
its `candidates[mention][category]` slot set to exactly that list. -/
theorem normCat_candGet_set (sim : String → String → ℚ)
    (vocab : List String) (catKey typeName : String) (mentions : List String)
    (st : SuggestState) {d : String} (hd : d ∈ mentions)
    (hnone : (bestMatch sim d vocab ratCutoff 5).1 = none)
    (hcands : (bestMatch sim d vocab ratCutoff 5).2 ≠ []) :
    candGet (normCat sim vocab catKey typeName mentions st).2 d catKey
      = some ((bestMatch sim d vocab ratCutoff 5).2) := by
  induction mentions generalizing st with
  | nil => exact absurd hd (List.not_mem_nil d)
  | cons a rest ih =>
      rcases List.mem_cons.mp hd with rfl | hdr
      · simp only [normCat, hnone, if_pos hcands]
        exact normCat_candGet_stable _ _ _ _ _ _
          (candGet_candSet_self _ _ _ _)
          (by rintro x hx rfl -; rfl)
      · cases h : (bestMatch sim a vocab ratCutoff 5).1 with
        | some b => simp only [normCat, h]; split <;> exact ih _ hdr
        | none => simp only [normCat, h]; split <;> exact ih _ hdr

/-!
`normalize_entities` assembled
-/

/-- The normalized intent is the input intent with each mention list
substituted element-wise. -/
theorem normalizeCore_fst (sim : String → String → ℚ) (vd vc vp : List String)
    (parsed : Intent) :
    (normalizeCore sim vd vc vp parsed).1 =
      { parsed with diseases := parsed.diseases.map (normElem sim vd),
                    combos := parsed.combos.map (normElem sim vc),
                    points := parsed.points.map (normElem sim vp) } := by
  simp only [normalizeCore, normCat_fst]

theorem map_idem {α : Type} {f : α → α} (hf : ∀ a, f (f a) = f a)
    (l : List α) : (l.map f).map f = l.map f := by
  induction l with
  | nil => rfl
  | cons a l ih => simp only [List.map_cons, hf, ih]

/-- With all three categories memoized, `normalize_entities` touches
neither the cache nor the store. -/
theorem normalizeEntities_warm (sim : String → String → ℚ)
    (store : String → List (String × PyVal) → List Record)
    (vd vc vp : List String) (parsed : Intent) :
    normalizeEntities sim store ⟨some vd, some vc, some vp⟩ parsed =
      (normalizeCore sim vd vc vp parsed, ⟨some vd, some vc, some vp⟩, []) := rfl

/-- Every store call `normalize_entities` can make is one of the three
fixed vocabulary queries. -/
theorem normalizeEntities_effects (sim : String → String → ℚ)
    (store : String → List (String × PyVal) → List Record)
    (cache : VocabCache) (parsed : Intent) :
    ∀ e ∈ (normalizeEntities sim store cache parsed).2.2,
      e = Effect.storeQuery diseasesCql ∨ e = Effect.storeQuery combosCql ∨
      e = Effect.storeQuery pointsCql := by
  intro e he
  obtain ⟨cd, cc, cp⟩ := cache
  cases cd <;> cases cc <;> cases cp <;>
    simp [normalizeEntities, getAllDiseases, getAllCombos, getAllPoints] at he <;>
    tauto

/-- Normalization never rewrites the query type. -/
theorem normalizeEntities_qt (sim : String → String → ℚ)
    (store : String → List (String × PyVal) → List Record)
    (cache : VocabCache) (parsed : Intent) :
    (normalizeEntities sim store cache parsed).1.1.query_type =
      parsed.query_type := rfl

/-!
Association-list facts for the `setdefault` repairs
-/

theorem assocGet_append_of_none {α : Type} (m l : List (String × α))
    (k : String) (h : assocGet m k = none) :
    assocGet (m ++ l) k = assocGet l k := by
  induction m with
  | nil => rfl
  | cons p rest ih =>
      obtain ⟨k0, v0⟩ := p
      by_cases hk : k0 = k
      · rw [show assocGet ((k0, v0) :: rest) k = some v0 from by
          simp [assocGet, hk]] at h
        exact absurd h (by simp)
      · simp only [assocGet, if_neg hk] at h
        simp only [List.cons_append, assocGet, if_neg hk]
        exact ih h

theorem assocGet_append_left {α : Type} (m l : List (String × α)) (k : String)
    (h : (assocGet m k).isSome) : assocGet (m ++ l) k = assocGet m k := by
  induction m with
  | nil => simp [assocGet] at h
  | cons p rest ih =>
      obtain ⟨k0, v0⟩ := p
      by_cases hk : k0 = k
      · simp [assocGet, hk]
      · simp only [assocGet, if_neg hk] at h
        simp only [List.cons_append, assocGet, if_neg hk]
        exact ih h

theorem pySetdefault_get_self (kvs : List (String × PyVal)) (k : String)
    (v : PyVal) : (assocGet (pySetdefault kvs k v) k).isSome := by
  unfold pySetdefault
  cases h : assocGet kvs k with
  | some w => simp [h]
  | none =>
      rw [assocGet_append_of_none _ _ _ h]
      simp [assocGet]

theorem pySetdefault_get_of_some (kvs : List (String × PyVal)) (k : String)
    (v : PyVal) {k' : String} {w : PyVal} (h : assocGet kvs k' = some w) :
    assocGet (pySetdefault kvs k v) k' = some w := by
  unfold pySetdefault
  cases hg : assocGet kvs k with
  | some u => exact h
  | none =>
      rw [assocGet_append_left _ _ _ (by rw [h]; rfl)]
      exact h

theorem pySetdefault_isSome_mono (kvs : List (String × PyVal)) (k : String)
    (v : PyVal) {k' : String} (h : (assocGet kvs k').isSome) :
    (assocGet (pySetdefault kvs k v) k').isSome := by
  obtain ⟨w, hw⟩ := Option.isSome_iff_exists.mp h
  rw [pySetdefault_get_of_some _ _ _ hw]
  rfl

theorem pySetdefault_get_of_none (kvs : List (String × PyVal)) (k : String)
    (v : PyVal) (h : assocGet kvs k = none) :
    assocGet (pySetdefault kvs k v) k = some v := by
  unfold pySetdefault
  rw [h, assocGet_append_of_none _ _ _ h]
  simp [assocGet]

/-!
The claims
-/

/-- Claim C1: for every intent, `normalize_entities` returns a normalized
intent whose diseases, combos and points lists each have the same length
as the corresponding input list; the output lists are exactly the
element-wise substitution of the input lists (no drops, insertions or
reorderings), and every substituted value is a vocabulary member or the
unchanged original mention. -/
theorem normalize_shape_preservation (sim : String → String → ℚ)
    (store : String → List (String × PyVal) → List Record)
    (vd vc vp : List String) (parsed : Intent) :
    let ni := (normalizeEntities sim store ⟨some vd, some vc, some vp⟩ parsed).1.1
    ni.query_type = parsed.query_type ∧
    ni.diseases.length = parsed.diseases.length ∧
    ni.combos.length = parsed.combos.length ∧
    ni.points.length = parsed.points.length ∧
    ni.diseases = parsed.diseases.map (normElem sim vd) ∧
    ni.combos = parsed.combos.map (normElem sim vc) ∧
    ni.points = parsed.points.map (normElem sim vp) ∧
    (∀ d, normElem sim vd d = d ∨ normElem sim vd d ∈ vd) ∧
    (∀ c, normElem sim vc c = c ∨ normElem sim vc c ∈ vc) ∧
    (∀ p, normElem sim vp p = p ∨ normElem sim vp p ∈ vp) := by
  intro ni
  have hni : ni = { parsed with diseases := parsed.diseases.map (normElem sim vd),
                                combos := parsed.combos.map (normElem sim vc),
                                points := parsed.points.map (normElem sim vp) } := by
    show (normalizeEntities sim store ⟨some vd, some vc, some vp⟩ parsed).1.1 = _
    rw [normalizeEntities_warm]
    exact normalizeCore_fst sim vd vc vp parsed
  rw [hni]
  refine ⟨rfl, ?_, ?_, ?_, rfl, rfl, rfl,
    normElem_eq_or_mem sim vd, normElem_eq_or_mem sim vc,
    normElem_eq_or_mem sim vp⟩ <;> simp

/-- An unmatched disease mention: recorded under `unmatched`, and its
surfaced sub-cutoff candidates recorded under
`candidates[mention]["diseases"]` when non-empty. -/
theorem normalizeCore_unmatched_disease (sim : String → String → ℚ)
    (vd vc vp : List String) (parsed : Intent) {d : String}
    (hd : d ∈ parsed.diseases)
    (hnone : (bestMatch sim d vd ratCutoff 5).1 = none) :
    ∃ st, (normalizeCore sim vd vc vp parsed).2 = some st ∧
      ("disease", d) ∈ st.unmatched ∧
      ((bestMatch sim d vd ratCutoff 5).2 ≠ [] →
        candGet st d "diseases" = some ((bestMatch sim d vd ratCutoff 5).2)) := by
  have h1 : ("disease", d) ∈
      (normCat sim vd "diseases" "disease" parsed.diseases ⟨[], []⟩).2.unmatched :=
    normCat_unmatched_adds _ _ _ _ _ _ hd hnone
  have h2 := normCat_unmatched_mono sim vc "combos" "combo" parsed.combos _ h1
  have h3 := normCat_unmatched_mono sim vp "points" "point" parsed.points _ h2
  refine ⟨_, ?_, h3, ?_⟩
  · simp only [normalizeCore]
    rw [if_neg (fun hc => by rw [hc.1] at h3; exact List.not_mem_nil _ h3)]
  · intro hcne
    have hset := normCat_candGet_set sim vd "diseases" "disease" parsed.diseases
      ⟨[], []⟩ hd hnone hcne
    have hstab2 := normCat_candGet_stable sim vc "combos" "combo" parsed.combos _
      hset (by rintro x hx rfl hck; exact absurd hck (by decide))
    exact normCat_candGet_stable sim vp "points" "point" parsed.points _
      hstab2 (by rintro x hx rfl hck; exact absurd hck (by decide))

/-- An unmatched combo mention: recorded under `unmatched` and (when
non-empty) under `candidates[mention]["combos"]`. -/
theorem normalizeCore_unmatched_combo (sim : String → String → ℚ)
    (vd vc vp : List String) (parsed : Intent) {c : String}
    (hc : c ∈ parsed.combos)
    (hnone : (bestMatch sim c vc ratCutoff 5).1 = none) :
    ∃ st, (normalizeCore sim vd vc vp parsed).2 = some st ∧
      ("combo", c) ∈ st.unmatched ∧
      ((bestMatch sim c vc ratCutoff 5).2 ≠ [] →
        candGet st c "combos" = some ((bestMatch sim c vc ratCutoff 5).2)) := by
  have h2 : ("combo", c) ∈
      (normCat sim vc "combos" "combo" parsed.combos
        (normCat sim vd "diseases" "disease" parsed.diseases ⟨[], []⟩).2).2.unmatched :=
    normCat_unmatched_adds _ _ _ _ _ _ hc hnone
  have h3 := normCat_unmatched_mono sim vp "points" "point" parsed.points _ h2
  refine ⟨_, ?_, h3, ?_⟩
  · simp only [normalizeCore]
    rw [if_neg (fun hcc => by rw [hcc.1] at h3; exact List.not_mem_nil _ h3)]
  · intro hcne
    have hset := normCat_candGet_set sim vc "combos" "combo" parsed.combos
      (normCat sim vd "diseases" "disease" parsed.diseases ⟨[], []⟩).2 hc hnone hcne
    exact normCat_candGet_stable sim vp "points" "point" parsed.points _
      hset (by rintro x hx rfl hck; exact absurd hck (by decide))

/-- An unmatched point mention: recorded under `unmatched` and (when
non-empty) under `candidates[mention]["points"]`. -/
theorem normalizeCore_unmatched_point (sim : String → String → ℚ)
    (vd vc vp : List String) (parsed : Intent) {p : String}
    (hp : p ∈ parsed.points)
    (hnone : (bestMatch sim p vp ratCutoff 5).1 = none) :
    ∃ st, (normalizeCore sim vd vc vp parsed).2 = some st ∧
      ("point", p) ∈ st.unmatched ∧
      ((bestMatch sim p vp ratCutoff 5).2 ≠ [] →
        candGet st p "points" = some ((bestMatch sim p vp ratCutoff 5).2)) := by
  have h3 : ("point", p) ∈
      (normCat sim vp "points" "point" parsed.points
        (normCat sim vc "combos" "combo" parsed.combos
          (normCat sim vd "diseases" "disease" parsed.diseases ⟨[], []⟩).2).2).2.unmatched :=
    normCat_unmatched_adds _ _ _ _ _ _ hp hnone
  refine ⟨_, ?_, h3, ?_⟩
  · simp only [normalizeCore]
    rw [if_neg (fun hcc => by rw [hcc.1] at h3; exact List.not_mem_nil _ h3)]
  · intro hcne
    exact normCat_candGet_set sim vp "points" "point" parsed.points _ hp hnone hcne

/-- Claim C7: a mention for which no candidate clears the cutoff is kept
unchanged (its substitution is the identity), recorded under `unmatched`
with its category's type tag, and its surfaced below-cutoff candidate
list — when `_best_match` returned one — is recorded under
`candidates[mention][category]`; in each of the three categories. -/
theorem unmatched_mention_recorded (sim : String → String → ℚ)
    (store : String → List (String × PyVal) → List Record)
    (vd vc vp : List String) (parsed : Intent) (d : String) :
    (d ∈ parsed.diseases → (bestMatch sim d vd ratCutoff 5).1 = none →
      normElem sim vd d = d ∧
      ∃ st, (normalizeEntities sim store ⟨some vd, some vc, some vp⟩ parsed).1.2
          = some st ∧
        ("disease", d) ∈ st.unmatched ∧
        ((bestMatch sim d vd ratCutoff 5).2 ≠ [] →
          candGet st d "diseases" = some ((bestMatch sim d vd ratCutoff 5).2))) ∧
    (d ∈ parsed.combos → (bestMatch sim d vc ratCutoff 5).1 = none →
      normElem sim vc d = d ∧
      ∃ st, (normalizeEntities sim store ⟨some vd, some vc, some vp⟩ parsed).1.2
          = some st ∧
        ("combo", d) ∈ st.unmatched ∧
        ((bestMatch sim d vc ratCutoff 5).2 ≠ [] →
          candGet st d "combos" = some ((bestMatch sim d vc ratCutoff 5).2))) ∧
    (d ∈ parsed.points → (bestMatch sim d vp ratCutoff 5).1 = none →
      normElem sim vp d = d ∧
      ∃ st, (normalizeEntities sim store ⟨some vd, some vc, some vp⟩ parsed).1.2
          = some st ∧
        ("point", d) ∈ st.unmatched ∧
        ((bestMatch sim d vp ratCutoff 5).2 ≠ [] →
          candGet st d "points" = some ((bestMatch sim d vp ratCutoff 5).2))) := by
  have hr : (normalizeEntities sim store ⟨some vd, some vc, some vp⟩ parsed).1.2
      = (normalizeCore sim vd vc vp parsed).2 := by
    rw [normalizeEntities_warm]
  refine ⟨fun hd hnone => ⟨?_, ?_⟩, fun hd hnone => ⟨?_, ?_⟩,
          fun hd hnone => ⟨?_, ?_⟩⟩
  · unfold normElem; rw [hnone]
  · rw [hr]; exact normalizeCore_unmatched_disease sim vd vc vp parsed hd hnone
  · unfold normElem; rw [hnone]
  · rw [hr]; exact normalizeCore_unmatched_combo sim vd vc vp parsed hd hnone
  · unfold normElem; rw [hnone]
  · rw [hr]; exact normalizeCore_unmatched_point sim vd vc vp parsed hd hnone

/-- Witness for C7 at a concrete input: the mention "x" against the
disease vocabulary ["y"] (similarity 0 everywhere) stays unchanged and
lands in `unmatched`. -/
theorem unmatched_mention_recorded_witness :
    normElem (fun _ _ => (0 : ℚ)) ["y"] "x" = "x" ∧
    ∃ st, (normalizeEntities (fun _ _ => (0 : ℚ)) emptyStore
        ⟨some ["y"], some [], some []⟩ ⟨"q", ["x"], [], []⟩).1.2 = some st ∧
      ("disease", "x") ∈ st.unmatched ∧
      ((bestMatch (fun _ _ => (0 : ℚ)) "x" ["y"] ratCutoff 5).2 ≠ [] →
        candGet st "x" "diseases"
          = some ((bestMatch (fun _ _ => (0 : ℚ)) "x" ["y"] ratCutoff 5).2)) :=
  (unmatched_mention_recorded (fun _ _ => (0 : ℚ)) emptyStore ["y"] [] []
    ⟨"q", ["x"], [], []⟩ "x").1 (by decide) (by decide)

/-- Claim C8: for a fixed vocabulary and mention, `_best_match` matching
is monotone in the cutoff: matched at cutoff `c2` implies matched at any
`c1 ≤ c2` (indeed with the same adopted candidate). -/
theorem bestMatch_cutoff_monotone (sim : String → String → ℚ)
    (name : String) (cands : List String) (topN : Nat) (c1 c2 : ℚ)
    (h12 : c1 ≤ c2) (hm : ((bestMatch sim name cands c2 topN).1).isSome) :
    ((bestMatch sim name cands c1 topN).1).isSome ∧
    (bestMatch sim name cands c1 topN).1 = (bestMatch sim name cands c2 topN).1 := by
  obtain ⟨b, hb⟩ := Option.isSome_iff_exists.mp hm
  have h := bestMatch_mono_aux h12 hb
  exact ⟨by rw [h]; rfl, by rw [h, hb]⟩

/-- Witness for C8 at a concrete input: "a" matched against vocabulary
["a"] at cutoff 0.7 stays matched when the cutoff drops to 0.5. -/
theorem bestMatch_cutoff_monotone_witness :
    ((bestMatch simEq "a" ["a"] (mkRat 1 2) 5).1).isSome :=
  (bestMatch_cutoff_monotone simEq "a" ["a"] 5 (mkRat 1 2) ratCutoff
    (by decide) (by decide)).1

/-- Claim C9: normalization is idempotent on the normalized intent for a
fixed vocabulary snapshot (warm cache), under the two ratio facts the
claim cites: a string matches itself with ratio 1, and distinct strings
score strictly below 1. -/
theorem normalize_idempotent (sim : String → String → ℚ)
    (store : String → List (String × PyVal) → List Record)
    (vd vc vp : List String) (parsed : Intent)
    (hself : ∀ x, sim x x = 1) (hlt : ∀ x y, x ≠ y → sim x y < 1) :
    (normalizeEntities sim store ⟨some vd, some vc, some vp⟩
        ((normalizeEntities sim store ⟨some vd, some vc, some vp⟩ parsed).1.1)).1.1 =
      (normalizeEntities sim store ⟨some vd, some vc, some vp⟩ parsed).1.1 := by
  simp only [normalizeEntities_warm]
  show (normalizeCore sim vd vc vp (normalizeCore sim vd vc vp parsed).1).1 =
    (normalizeCore sim vd vc vp parsed).1
  simp only [normalizeCore_fst]
  cases parsed with
  | mk qt ds cs ps =>
      simp only [Intent.mk.injEq]
      exact ⟨trivial, map_idem (normElem_idem hself hlt) ds,
        map_idem (normElem_idem hself hlt) cs,
        map_idem (normElem_idem hself hlt) ps⟩

/-- Witness for C9 at a concrete input. -/
theorem normalize_idempotent_witness :
    (normalizeEntities simEq emptyStore ⟨some ["a"], some [], some []⟩
        ((normalizeEntities simEq emptyStore ⟨some ["a"], some [], some []⟩
          ⟨"q", ["a"], [], []⟩).1.1)).1.1 =
      (normalizeEntities simEq emptyStore ⟨some ["a"], some [], some []⟩
        ⟨"q", ["a"], [], []⟩).1.1 :=
  normalize_idempotent simEq emptyStore ["a"] [] [] ⟨"q", ["a"], [], []⟩
    (by intro x; simp [simEq])
    (by intro x y h; simp only [simEq, if_neg h]; decide)

/-- Claim C2: dispatching `disease_combo_to_effect` with an empty combo
list — or symmetrically an empty disease list — raises the validation
`ValueError` whatever the other list contains, and executes no graph
query (no store effect). -/
theorem required_entity_gating
    (store : String → List (String × PyVal) → List Record)
    (parsed : Intent) (maxPlans : Int)
    (hqt : parsed.query_type = "disease_combo_to_effect")
    (h : parsed.combos = [] ∨ parsed.diseases = []) :
    buildAndRunQuery store parsed maxPlans =
      (.error "disease_combo_to_effect 需要同时包含疾病和组合实体。", []) := by
  rcases h with hc | hd
  · simp [buildAndRunQuery, hqt, hc]
  · simp [buildAndRunQuery, hqt, hd]

/-- Witness for C2 at a concrete input: a disease but no combo. -/
theorem required_entity_gating_witness :
    buildAndRunQuery emptyStore ⟨"disease_combo_to_effect", ["脑卒中后遗症"], [], []⟩ 10 =
      (.error "disease_combo_to_effect 需要同时包含疾病和组合实体。", []) :=
  required_entity_gating emptyStore ⟨"disease_combo_to_effect", ["脑卒中后遗症"], [], []⟩
    10 rfl (Or.inl rfl)

/-- Dispatch on a query type outside the handled five returns the empty
query text and no records, raising nothing and touching the store not at
all. -/
theorem buildAndRunQuery_unhandled
    (store : String → List (String × PyVal) → List Record)
    (parsed : Intent) (maxPlans : Int)
    (hqt : parsed.query_type ∉ handledTypes) :
    buildAndRunQuery store parsed maxPlans = (.ok ("", []), []) := by
  simp only [handledTypes, List.mem_cons, List.mem_singleton, not_or] at hqt
  obtain ⟨h1, h2, h3, h4, h5, -⟩ := hqt
  simp only [buildAndRunQuery,
    if_neg h1, if_neg h2, if_neg h3, if_neg h4, if_neg h5]

/-- Claim C10: for a normalized intent whose query type is none of the
five handled templates and not `unknown` (e.g. `point_to_combos`),
dispatch returns the empty query text and an empty record list without
raising; the endpoint in graph mode then replies with `cypher = none`,
`records = some []` and the grounded zero-record not-found answer rather
than a validation error. -/
theorem unhandled_query_type_soft (sim : String → String → ℚ)
    (store : String → List (String × PyVal) → List Record)
    (cache : VocabCache) (oc : GenOutcome) (req : QAReq) (parsed : Intent)
    (hqt : parsed.query_type ∉ handledTypes)
    (hunk : parsed.query_type ≠ "unknown")
    (hq : pyStrip req.question ≠ "") (hkg : req.use_kg = true) :
    (∀ mp : Int, buildAndRunQuery store parsed mp = (.ok ("", []), [])) ∧
    ∃ resp, (qaEndpoint sim store cache oc req parsed).1 = .ok resp ∧
      resp.cypher = none ∧ resp.records = some [] ∧
      resp.answer = notFoundText ∧ resp.query_type = some parsed.query_type := by
  refine ⟨fun mp => buildAndRunQuery_unhandled store parsed mp hqt, ?_⟩
  have hqnorm : (normalizeEntities sim store cache parsed).1.1.query_type
      = parsed.query_type := normalizeEntities_qt sim store cache parsed
  simp only [qaEndpoint, if_neg hq]
  rw [hkg]
  rw [if_neg (show ¬ (true = false) by decide)]
  rw [hqnorm, if_neg hunk]
  have hbr : buildAndRunQuery store (normalizeEntities sim store cache parsed).1.1
      req.max_plans = (.ok ("", []), []) :=
    buildAndRunQuery_unhandled store _ _ (by rw [hqnorm]; exact hqt)
  rw [hbr]
  refine ⟨_, rfl, ?_, rfl, ?_, ?_⟩
  · simp
  · simp [callLlmForAnswer, hunk]
  · rfl

/-- Witness for C10 at a concrete input: query type `point_to_combos`. -/
theorem unhandled_query_type_soft_witness :
    ∃ resp, (qaEndpoint (fun _ _ => (0 : ℚ)) emptyStore ⟨none, none, none⟩
        .failure ⟨"q", 10, true⟩ ⟨"point_to_combos", [], [], []⟩).1 = .ok resp ∧
      resp.cypher = none ∧ resp.records = some [] ∧
      resp.answer = notFoundText ∧ resp.query_type = some "point_to_combos" :=
  (unhandled_query_type_soft (fun _ _ => (0 : ℚ)) emptyStore ⟨none, none, none⟩
    .failure ⟨"q", 10, true⟩ ⟨"point_to_combos", [], [], []⟩
    (by decide) (by decide) (by decide) rfl).2

theorem pvQueryType_pdict (kvs : List (String × PyVal)) :
    pvQueryType (.pdict kvs) = assocGet kvs "query_type" := rfl

theorem ruleFallback_fields (q : String) : hasIntentFields (ruleFallback q) := by
  simp only [ruleFallback]
  split
  · exact ⟨rfl, rfl, rfl, rfl⟩
  · split
    · exact ⟨rfl, rfl, rfl, rfl⟩
    · exact ⟨rfl, rfl, rfl, rfl⟩

/-- Claim C3: intent parsing is total — whatever the generation outcome
and whatever `json.loads` makes of the text, the result is a dict with
all four intent fields; a generation failure or a non-dict parse lands
in the ordered keyword fallback; and when no rule matches, the fallback
is the unknown intent with three empty lists. -/
theorem parse_total_with_fallback (jl : String → Option PyVal)
    (oc : GenOutcome) (q : String) :
    hasIntentFields (callLlmForParse jl oc q) ∧
    (∀ c, oc = .success c →
      (∀ kvs, jl (fenceStrip c) ≠ some (.pdict kvs)) →
      callLlmForParse jl oc q = ruleFallback q) ∧
    (oc = .failure → callLlmForParse jl oc q = ruleFallback q) ∧
    (∀ q' : String,
      ¬ (strContains (pyStrip q') "颞三针" = true ∧
         (strContains (pyStrip q') "什么病" = true ∨
          strContains (pyStrip q') "哪些病" = true ∨
          strContains (pyStrip q') "适应证" = true)) →
      ¬ strContains (pyStrip q') "脑卒中" = true →
      ruleFallback q' = unknownIntentPy) := by
  refine ⟨?_, ?_, ?_, ?_⟩
  · cases oc with
    | failure => exact ruleFallback_fields q
    | success c =>
        cases hjl : jl (fenceStrip c) with
        | none => simp only [callLlmForParse, hjl]; exact ruleFallback_fields q
        | some v =>
            cases v with
            | pdict kvs =>
                simp only [callLlmForParse, hjl]
                refine ⟨?_, ?_, ?_, ?_⟩
                · exact pySetdefault_isSome_mono _ _ _
                    (pySetdefault_isSome_mono _ _ _
                      (pySetdefault_isSome_mono _ _ _
                        (pySetdefault_get_self _ _ _)))
                · exact pySetdefault_isSome_mono _ _ _
                    (pySetdefault_isSome_mono _ _ _
                      (pySetdefault_get_self _ _ _))
                · exact pySetdefault_isSome_mono _ _ _
                    (pySetdefault_get_self _ _ _)
                · exact pySetdefault_get_self _ _ _
            | pstr s => simp only [callLlmForParse, hjl]; exact ruleFallback_fields q
            | pnum n => simp only [callLlmForParse, hjl]; exact ruleFallback_fields q
            | pbool b => simp only [callLlmForParse, hjl]; exact ruleFallback_fields q
            | pnull => simp only [callLlmForParse, hjl]; exact ruleFallback_fields q
            | plist xs => simp only [callLlmForParse, hjl]; exact ruleFallback_fields q
  · rintro c rfl hnd
    cases hjl : jl (fenceStrip c) with
    | none => simp only [callLlmForParse, hjl]
    | some v =>
        cases v with
        | pdict kvs => exact absurd hjl (hnd kvs)
        | pstr s => simp only [callLlmForParse, hjl]
        | pnum n => simp only [callLlmForParse, hjl]
        | pbool b => simp only [callLlmForParse, hjl]
        | pnull => simp only [callLlmForParse, hjl]
        | plist xs => simp only [callLlmForParse, hjl]
  · rintro rfl; rfl
  · intro q' h1 h2
    simp only [ruleFallback]
    rw [if_neg h1, if_neg h2]
    rfl

/-- Witness for C3 at a concrete input: a failing generation call on a
question matching no rule. -/
theorem parse_total_with_fallback_witness :
    hasIntentFields (callLlmForParse (fun _ => none) .failure "hi") ∧
    callLlmForParse (fun _ => none) .failure "hi" = ruleFallback "hi" ∧
    ruleFallback "hi" = unknownIntentPy :=
  ⟨(parse_total_with_fallback (fun _ => none) .failure "hi").1,
   (parse_total_with_fallback (fun _ => none) .failure "hi").2.2.1 rfl,
   (parse_total_with_fallback (fun _ => none) .failure "hi").2.2.2 "hi"
     (by decide) (by decide)⟩

/-- Counterexample for C6: on the valid JSON output `ptcJson` the parser
returns the dict unchanged, whose `query_type` value `point_to_combos`
lies outside the specification's six-element set. -/
theorem parse_qt_closed_set_cex :
    callLlmForParse jsonLoadsPtc (.success ptcJson) "q" = ptcDict ∧
    "point_to_combos" ∉ specSixTypes := by
  exact ⟨rfl, by decide⟩

/-- Claim C6 as amended: the rule fallback always produces a query type
inside the specification's six-element set, and so does the default
applied when the field is missing; but a `query_type` value present in
valid JSON output is passed through unvalidated, so the parsed intent
can carry any string there (e.g. `point_to_combos`). -/
theorem parse_qt_amended (jl : String → Option PyVal) (q c : String)
    (kvs : List (String × PyVal)) :
    (∃ s, pvQueryType (ruleFallback q) = some (.pstr s) ∧ s ∈ specSixTypes) ∧
    (jl (fenceStrip c) = some (.pdict kvs) →
      assocGet kvs "query_type" = none →
      pvQueryType (callLlmForParse jl (.success c) q)
        = some (.pstr "disease_to_plans")) ∧
    (∀ w, jl (fenceStrip c) = some (.pdict kvs) →
      assocGet kvs "query_type" = some w →
      pvQueryType (callLlmForParse jl (.success c) q) = some w) := by
  refine ⟨?_, ?_, ?_⟩
  · simp only [ruleFallback]
    split
    · exact ⟨"combo_to_diseases", rfl, by decide⟩
    · split
      · exact ⟨"disease_to_plans", rfl, by decide⟩
      · exact ⟨"unknown", rfl, by decide⟩
  · intro hjl hnone
    simp only [callLlmForParse, hjl]
    rw [pvQueryType_pdict]
    exact pySetdefault_get_of_some _ _ _
      (pySetdefault_get_of_some _ _ _
        (pySetdefault_get_of_some _ _ _
          (pySetdefault_get_of_none _ _ _ hnone)))
  · intro w hjl hsome
    simp only [callLlmForParse, hjl]
    rw [pvQueryType_pdict]
    exact pySetdefault_get_of_some _ _ _
      (pySetdefault_get_of_some _ _ _
        (pySetdefault_get_of_some _ _ _
          (pySetdefault_get_of_some _ _ _ hsome)))

/-- Witness for the amended C6 at a concrete input: the passthrough on
`ptcJson`. -/
theorem parse_qt_amended_witness :
    pvQueryType (callLlmForParse jsonLoadsPtc (.success ptcJson) "q")
      = some (.pstr "point_to_combos") :=
  (parse_qt_amended jsonLoadsPtc "q" ptcJson
    [("query_type", .pstr "point_to_combos"), ("diseases", .plist []),
     ("combos", .plist []), ("points", .plist [])]).2.2
    (.pstr "point_to_combos") rfl rfl

/-- Counterexample for C4: on the unknown-type path (either mode) the
returned string is the fixed clarification request, which does not end
with the grounded disclaimer sentence, nor with the non-grounded one. -/
theorem answer_disclaimer_cex :
    (callLlmForAnswer .failure "q" [] "unknown" ⟨[], [], []⟩).1
      = clarificationText ∧
    pyEndsWith clarificationText groundedDisclaimer = false ∧
    (callLlmForAnswerNoKg .failure "q" "unknown" ⟨[], [], []⟩).1
      = clarificationText ∧
    pyEndsWith clarificationText noKgDisclaimer = false :=
  ⟨rfl, by decide, rfl, by decide⟩

set_option maxRecDepth 8000 in
/-- Claim C4 as amended: the code itself never appends a disclaimer —
each mode's system instruction contains that mode's disclaimer sentence
(as an instruction to the model), a successful generation is returned
verbatim, and none of the fixed degraded strings (clarification,
zero-record not-found, either apology) ends with its mode's disclaimer
sentence. -/
theorem answer_disclaimer_amended (q : String) (records : List Record)
    (qt : String) (ents : EntityDict) :
    strContains groundedSystemPrompt groundedDisclaimer = true ∧
    strContains noKgSystemPrompt noKgDisclaimer = true ∧
    (qt ≠ "unknown" → records ≠ [] →
      ∀ ans, (callLlmForAnswer (.success ans) q records qt ents).1 = ans) ∧
    (qt ≠ "unknown" →
      ∀ ans, (callLlmForAnswerNoKg (.success ans) q qt ents).1 = ans) ∧
    pyEndsWith clarificationText groundedDisclaimer = false ∧
    pyEndsWith notFoundText groundedDisclaimer = false ∧
    pyEndsWith kgApologyText groundedDisclaimer = false ∧
    pyEndsWith clarificationText noKgDisclaimer = false ∧
    pyEndsWith noKgApologyText noKgDisclaimer = false := by
  refine ⟨by decide, by decide, ?_, ?_, by decide, by decide, by decide,
    by decide, by decide⟩
  · intro h1 h2 ans
    simp [callLlmForAnswer, h1, h2]
  · intro h1 ans
    simp [callLlmForAnswerNoKg, h1]

/-- Witness for the amended C4 at a concrete input: a successful
generation on a grounded non-degraded path is returned verbatim. -/
theorem answer_disclaimer_amended_witness :
    (callLlmForAnswer (.success "ok") "q" [[]] "disease_to_plans"
      ⟨[], [], []⟩).1 = "ok" :=
  (answer_disclaimer_amended "q" [[]] "disease_to_plans" ⟨[], [], []⟩).2.2.1
    (by decide) (by simp) "ok"

/-- With every vocabulary category already memoized,
`normalize_entities` performs no store access at all. -/
theorem normalizeEntities_warm_effects (sim : String → String → ℚ)
    (store : String → List (String × PyVal) → List Record)
    (cache : VocabCache) (parsed : Intent)
    (h1 : cache.diseases.isSome) (h2 : cache.combos.isSome)
    (h3 : cache.points.isSome) :
    (normalizeEntities sim store cache parsed).2.2 = [] := by
  obtain ⟨cd, cc, cp⟩ := cache
  obtain ⟨vd, rfl⟩ := Option.isSome_iff_exists.mp h1
  obtain ⟨vc, rfl⟩ := Option.isSome_iff_exists.mp h2
  obtain ⟨vp, rfl⟩ := Option.isSome_iff_exists.mp h3
  rfl

/-- Counterexample for C5: handling a request parsed as `unknown` with a
cold vocabulary cache does invoke the graph store — the three vocabulary
queries run during normalization — even though the answer is the fixed
clarification string and no template query or generation call happens. -/
theorem unknown_shortcircuit_cex :
    (qaEndpoint (fun _ _ => (0 : ℚ)) emptyStore ⟨none, none, none⟩ .failure
        ⟨"问", 10, true⟩ ⟨"unknown", [], [], []⟩).2.2
      = [Effect.storeQuery diseasesCql, Effect.storeQuery combosCql,
         Effect.storeQuery pointsCql] ∧
    (qaEndpoint (fun _ _ => (0 : ℚ)) emptyStore ⟨none, none, none⟩ .failure
        ⟨"问", 10, true⟩ ⟨"unknown", [], [], []⟩).1
      = .ok ⟨clarificationText, some "unknown", some ⟨[], [], []⟩,
             none, some [], none⟩ :=
  ⟨rfl, rfl⟩

/-- Claim C5 as amended: a request whose parsed query type is `unknown`
gets the fixed clarification answer in both modes with `cypher = none`,
no generation call is made for the answer and no query template is
executed — the only store accesses that can occur are the three
vocabulary fetches of normalization warming a cold cache, and with all
three categories memoized no store access happens at all. -/
theorem unknown_shortcircuit_amended (sim : String → String → ℚ)
    (store : String → List (String × PyVal) → List Record)
    (cache : VocabCache) (oc : GenOutcome) (req : QAReq) (parsed : Intent)
    (hqt : parsed.query_type = "unknown") (hq : pyStrip req.question ≠ "") :
    (∃ resp, (qaEndpoint sim store cache oc req parsed).1 = .ok resp ∧
      resp.answer = clarificationText ∧ resp.cypher = none ∧
      resp.query_type = some "unknown" ∧
      (req.use_kg = true → resp.records = some []) ∧
      (req.use_kg = false → resp.records = none)) ∧
    (∀ e ∈ (qaEndpoint sim store cache oc req parsed).2.2,
      e = Effect.storeQuery diseasesCql ∨ e = Effect.storeQuery combosCql ∨
      e = Effect.storeQuery pointsCql) ∧
    Effect.genCall ∉ (qaEndpoint sim store cache oc req parsed).2.2 ∧
    (cache.diseases.isSome → cache.combos.isSome → cache.points.isSome →
      (qaEndpoint sim store cache oc req parsed).2.2 = []) := by
  have hqn : (normalizeEntities sim store cache parsed).1.1.query_type
      = "unknown" := by
    rw [normalizeEntities_qt]; exact hqt
  have hmain : qaEndpoint sim store cache oc req parsed =
      (.ok ⟨clarificationText, some "unknown",
            some ⟨(normalizeEntities sim store cache parsed).1.1.diseases,
                  (normalizeEntities sim store cache parsed).1.1.combos,
                  (normalizeEntities sim store cache parsed).1.1.points⟩,
            none, (if req.use_kg = false then none else some []),
            (normalizeEntities sim store cache parsed).1.2⟩,
       (normalizeEntities sim store cache parsed).2.1,
       (normalizeEntities sim store cache parsed).2.2) := by
    unfold qaEndpoint
    rw [if_neg hq]
    cases hkg : req.use_kg with
    | false => simp [hkg, hqn, callLlmForAnswerNoKg]
    | true => simp [hkg, hqn, callLlmForAnswer]
  refine ⟨⟨_, by rw [hmain], rfl, rfl, rfl, ?_, ?_⟩, ?_, ?_, ?_⟩
  · intro h; rw [h]; simp
  · intro h; rw [h]; simp
  · intro e he
    rw [hmain] at he
    exact normalizeEntities_effects sim store cache parsed e he
  · intro hmem
    rw [hmain] at hmem
    rcases normalizeEntities_effects sim store cache parsed _ hmem with h | h | h <;>
      exact Effect.noConfusion h
  · intro h1 h2 h3
    rw [hmain]
    exact normalizeEntities_warm_effects sim store cache parsed h1 h2 h3

/-- Witness for the amended C5 at a concrete input: warm cache, graph
mode, unknown intent — fixed clarification answer and no effects. -/
theorem unknown_shortcircuit_amended_witness :
    Effect.genCall ∉ (qaEndpoint (fun _ _ => (0 : ℚ)) emptyStore
        ⟨some ["d"], some ["c"], some ["p"]⟩ .failure
        ⟨"问", 10, true⟩ ⟨"unknown", [], [], []⟩).2.2 ∧
    (qaEndpoint (fun _ _ => (0 : ℚ)) emptyStore
        ⟨some ["d"], some ["c"], some ["p"]⟩ .failure
        ⟨"问", 10, true⟩ ⟨"unknown", [], [], []⟩).2.2 = [] :=
  ⟨(unknown_shortcircuit_amended (fun _ _ => (0 : ℚ)) emptyStore
      ⟨some ["d"], some ["c"], some ["p"]⟩ .failure
      ⟨"问", 10, true⟩ ⟨"unknown", [], [], []⟩ rfl (by decide)).2.2.1,
   (unknown_shortcircuit_amended (fun _ _ => (0 : ℚ)) emptyStore
      ⟨some ["d"], some ["c"], some ["p"]⟩ .failure
      ⟨"问", 10, true⟩ ⟨"unknown", [], [], []⟩ rfl (by decide)).2.2.2
      rfl rfl rfl⟩

end SanzhenQA
